import Mathlib

/-!
Verification development for the pdfmm indirect-object repository and
cross-reference resolution engine.  The definitions below are a shallow
embedding of the C++ sources (`src/pdfmm/base/PdfParser.cpp`,
`PdfParserObject.cpp`, `PdfImmediateWriter.cpp` and the headers they use);
each definition names the function or code region it embeds.  Components of
the repository whose implementation files are not part of the excerpt
(for example `PdfXRefEntry`, the delayed-load machinery of `PdfObject`,
`PdfXRefStreamParserObject` and the free-list helpers of
`PdfIndirectObjectList`) are modelled from the specification and are marked
as such in their doc comments.
-/

namespace Pdfmm

/-- Error codes, from `PdfError.h` (`enum class PdfErrorCode`), restricted to
the codes the modelled code can raise. -/
inductive PdfErrorCode where
  | invalidHandle
  | unexpectedEOF
  | valueOutOfRange
  | internalLogic
  | invalidEnumValue
  | noPdfFile
  | noXRef
  | noTrailer
  | noNumber
  | noObject
  | noEOFToken
  | invalidXRef
  | invalidXRefStream
  | invalidEncryptionDict
  | invalidPassword
  deriving DecidableEq, Repr

/-- One constructor per `PDFMM_RAISE_ERROR` site of the modelled code.  A C++
`PdfError` carries an error code plus a stack of frame information strings,
so errors raised at distinct sites are distinguishable values; the embedding
keeps one constructor per raise site and recovers the raw code through
`PdfErr.code`. -/
inductive PdfErr where
  /-- `PdfRecursionGuard` constructor, `PdfParser.cpp` line 64: recursion
  depth above `MaxRecursionDepth = 500`. -/
  | recursionLimit
  /-- `PdfParser::ReadXRefContents`, line 359: offset already visited. -/
  | cycleDetected (offset : Nat)
  /-- `ReadXRefSubsection` line 489: negative first object. -/
  | xrefFirstObjectNegative
  /-- `ReadXRefSubsection` line 491: negative object count. -/
  | xrefObjectCountNegative
  /-- `ReadXRefSubsection` line 528: type char not `n`/`f`. -/
  | invalidXRefEntryType
  /-- `ReadXRefSubsection` line 535: incomplete record or bad EOL. -/
  | invalidXRefEntryEOL
  /-- `ReadXRefSubsection` line 553: offset above `PTRDIFF_MAX`. -/
  | xrefOffsetOutOfRange
  /-- `ReadXRefSubsection` line 562 unreachable enum default. -/
  | invalidXRefEnum
  /-- `InputStreamDevice::Read` failing to deliver a full 20-byte record. -/
  | subsectionUnexpectedEOF
  /-- `ReadXRefContents` lines 392/399: no token / not an xref section. -/
  | noXRefToken
  /-- `ReadXRefContents` line 413: more than `MAX_XREF_SESSION_COUNT`
  subsections. -/
  | tooManyXRefSections
  /-- `ReadNextTrailer` line 323: next token is not `trailer`. -/
  | noTrailerToken
  /-- `PdfXRefStreamParserObject::Parse` failure (modelled). -/
  | invalidXRefStreamObj
  /-- `PdfParser::Parse` line 123: no PDF header. -/
  | notAPdfFile
  /-- `CheckEOFMarker`: no `%%EOF` marker found. -/
  | noEOFMarker
  /-- `ReadObjects` line 658: encrypt reference out of table bounds. -/
  | encryptNonexistentObject
  /-- `ReadObjects` line 689: encrypt entry neither object nor reference. -/
  | encryptBadType
  /-- `ReadObjects` line 699: authentication failed. -/
  | badPassword
  /-- `ReadObjectsInternal` line 774: strict mode, in-use entry with zero
  offset. -/
  | zeroOffsetStrict
  /-- `ReadObjectsInternal` rethrow of a broken-object load error when
  `m_IgnoreBrokenObjects` is unset. -/
  | brokenObject (num gen : Nat)
  /-- `ReadObjectsInternal` line 799: entry with an unknown type tag. -/
  | invalidEntryEnum
  /-- `ReadCompressedObjectFromStream` line 872: container object missing. -/
  | containerObjectMissing (num : Nat)
  /-- `FindXRef`: no `startxref` token found. -/
  | noStartXRef
  /-- `PdfParserObject` constructor (`PdfParserObject.cpp` line 29): the
  entry's reference is not a valid indirect reference. -/
  | invalidIndirectReference
  /-- `PdfParserObject::Parse(tokenizer)`: no object found at the offset. -/
  | objectParseError
  deriving DecidableEq, Repr

/-- The `PdfErrorCode` carried by each raise site (what `PdfError::GetError`
returns, used by the `catch` filters in `PdfParser.cpp`). -/
def PdfErr.code : PdfErr → PdfErrorCode
  | .recursionLimit => .invalidXRef
  | .cycleDetected _ => .invalidXRef
  | .xrefFirstObjectNegative => .valueOutOfRange
  | .xrefObjectCountNegative => .valueOutOfRange
  | .invalidXRefEntryType => .invalidXRef
  | .invalidXRefEntryEOL => .invalidXRef
  | .xrefOffsetOutOfRange => .valueOutOfRange
  | .invalidXRefEnum => .internalLogic
  | .subsectionUnexpectedEOF => .unexpectedEOF
  | .noXRefToken => .noXRef
  | .tooManyXRefSections => .noEOFToken
  | .noTrailerToken => .noTrailer
  | .invalidXRefStreamObj => .invalidXRefStream
  | .notAPdfFile => .noPdfFile
  | .noEOFMarker => .noEOFToken
  | .encryptNonexistentObject => .invalidEncryptionDict
  | .encryptBadType => .invalidEncryptionDict
  | .badPassword => .invalidPassword
  | .zeroOffsetStrict => .invalidXRef
  | .brokenObject _ _ => .invalidXRef
  | .invalidEntryEnum => .invalidEnumValue
  | .containerObjectMissing _ => .noObject
  | .noStartXRef => .noXRef
  | .invalidIndirectReference => .invalidHandle
  | .objectParseError => .noObject

/-- `XRefEntryType`, the tag of a cross-reference entry.  Modelled from the
spec (the defining header is not part of the excerpt): entries are tagged
free / in-use / compressed, with an additional unset default used by the
`default:` branch of `ReadObjectsInternal`. -/
inductive XRefEntryType where
  | unknown
  | free
  | inUse
  | compressed
  deriving DecidableEq, Repr

/-- `PdfXRefEntry`.  Modelled from the spec and from the field accesses in
`PdfParser.cpp` (the defining header is not part of the excerpt): an entry
carries the next-free object number (free entries, and the container number
of compressed entries), a byte offset (in-use entries), a generation, the
index inside a container (compressed entries), the type tag and the
`Parsed` flag. -/
structure PdfXRefEntry where
  objectNumber : Nat := 0
  offset : Nat := 0
  generation : Nat := 0
  index : Nat := 0
  type : XRefEntryType := .unknown
  parsed : Bool := false
  deriving DecidableEq, Repr

/-- The default-constructed, unparsed entry a freshly enlarged slot holds. -/
def PdfXRefEntry.unset : PdfXRefEntry := { objectNumber := 0 }

/-- `PdfXRefEntries::Enlarge`: grow the entry table to at least `n` slots,
filling new slots with unparsed defaults.  Modelled from the spec (the
defining header is not part of the excerpt). -/
def enlargeEntries (es : List PdfXRefEntry) (n : Nat) : List PdfXRefEntry :=
  es ++ List.replicate (n - es.length) PdfXRefEntry.unset

/-- `PTRDIFF_MAX` on the 64-bit targets the parser is compiled for. -/
def PTRDIFF_MAX : Nat := 2 ^ 63 - 1

/-- `MAX_XREF_SESSION_COUNT` from `PdfParser.cpp` line 29. -/
def MAX_XREF_SESSION_COUNT : Nat := 512

/-- `PDF_XREF_ENTRY_SIZE` from `PdfParser.cpp` line 27. -/
def PDF_XREF_ENTRY_SIZE : Nat := 20

/-- C `isspace` characters, as skipped by `sscanf` whitespace directives. -/
def isCSpace (c : Char) : Bool :=
  c = ' ' || c = '\t' || c = '\n' || c = '\x0b' || c = '\x0c' || c = '\r'

/-- PDF whitespace as recognized by `PdfTokenizer::IsWhitespace`.  Modelled
from the spec (the tokenizer sources are not part of the excerpt): NUL,
tab, line feed, form feed, carriage return and space. -/
def isPdfWhitespace (c : Char) : Bool :=
  c = '\x00' || c = '\t' || c = '\n' || c = '\x0c' || c = '\r' || c = ' '

/-- Numeric value of a digit string (most significant digit first). -/
def digitsVal (ds : List Char) : Nat :=
  ds.foldl (fun acc c => acc * 10 + (c.toNat - '0'.toNat)) 0

/-- One `%Nu` conversion of `sscanf`: skip C whitespace, then read at most
`maxw` leading decimal digits; fails (matching failure) when no digit
follows. -/
def scanUInt (maxw : Nat) (s : List Char) : Option (Nat × List Char) :=
  let s1 := s.dropWhile isCSpace
  let ds := (s1.take maxw).takeWhile Char.isDigit
  if ds.isEmpty then none else some (digitsVal ds, s1.drop ds.length)

/-- The `sscanf(buffer, "%10u %5u %c%c%c", ...)` call of
`PdfParser::ReadXRefSubsection` (line 524) on the null-terminated 20-byte
record buffer.  Returns the number of assigned conversions together with
the five values; unassigned values keep the zero-initialized (`variant`,
`generation`, `chType`) or unread (`empty1`, `empty2`, modelled as NUL,
only inspected when all five conversions succeeded) contents. -/
def scanXRefRecord (buf : List Char) : Nat × Nat × Nat × Char × Char × Char :=
  let s := buf.takeWhile (· ≠ '\x00')
  match scanUInt 10 s with
  | none => (0, 0, 0, '\x00', '\x00', '\x00')
  | some (v, s1) =>
    match scanUInt 5 s1 with
    | none => (1, v, 0, '\x00', '\x00', '\x00')
    | some (g, s2) =>
      match s2.dropWhile isCSpace with
      | [] => (2, v, g, '\x00', '\x00', '\x00')
      | c :: s3 =>
        match s3 with
        | [] => (3, v, g, c, '\x00', '\x00')
        | e1 :: s4 =>
          match s4 with
          | [] => (4, v, g, c, e1, '\x00')
          | e2 :: _ => (5, v, g, c, e1, e2)

/-- `CheckEOL` from `PdfParser.cpp` lines 468-475. -/
def checkEOL (e1 e2 : Char) : Bool :=
  (e1 = '\r' && e2 = '\n') || (e1 = '\n' && e2 = '\r')
    || (e1 = ' ' && (e2 = '\r' || e2 = '\n'))

/-- `CheckXRefEntryType` from `PdfParser.cpp` lines 477-480. -/
def checkXRefEntryType (c : Char) : Bool :=
  c = 'n' || c = 'f'

/-- `XRefEntryTypeFromChar`; only reached after `CheckXRefEntryType`. -/
def xrefEntryTypeFromChar (c : Char) : XRefEntryType :=
  if c = 'f' then .free else if c = 'n' then .inUse else .unknown

/-- The body of the `ReadXRefSubsection` record loop (lines 504-569) for one
20-byte record: scan, validate type and EOL, then fill the entry.  `magic`
is `m_magicOffset`. -/
def parseXRefRecord (magic : Nat) (entry : PdfXRefEntry) (buf : List Char) :
    Except PdfErr PdfXRefEntry :=
  let r := scanXRefRecord buf
  let readCount := r.1
  let variant := r.2.1
  let generation := r.2.2.1
  let chType := r.2.2.2.1
  let e1 := r.2.2.2.2.1
  let e2 := r.2.2.2.2.2
  if !checkXRefEntryType chType then
    .error .invalidXRefEntryType
  else
    let type := xrefEntryTypeFromChar chType
    if readCount ≠ 5 || !checkEOL e1 e2 then
      .error .invalidXRefEntryEOL
    else
      match type with
      | .free =>
        .ok { entry with objectNumber := variant, generation := generation,
                         type := .free, parsed := true }
      | .inUse =>
        let v := variant + magic
        if v > PTRDIFF_MAX then
          .error .xrefOffsetOutOfRange
        else
          .ok { entry with offset := v, generation := generation,
                           type := .inUse, parsed := true }
      | _ => .error .invalidXRefEnum

/-- The `while (index < objectCount)` loop of `ReadXRefSubsection`
(lines 500-572).  Each iteration consumes 20 bytes from the device; an
entry is only written when the slot is in bounds and not yet parsed.  On
an error the entries mutated so far are kept (they live in the member
`m_entries`). -/
def readXRefSubsectionLoop (magic firstObject : Nat) :
    Nat → Nat → List Char → List PdfXRefEntry →
    List PdfXRefEntry × Option PdfErr
  | 0, _, _, es => (es, none)
  | remaining + 1, index, bytes, es =>
    if bytes.length < PDF_XREF_ENTRY_SIZE then
      (es, some .subsectionUnexpectedEOF)
    else
      let buf := bytes.take PDF_XREF_ENTRY_SIZE
      let rest := bytes.drop PDF_XREF_ENTRY_SIZE
      let objIndex := firstObject + index
      if h : objIndex < es.length then
        let entry := es.get ⟨objIndex, h⟩
        if entry.parsed then
          readXRefSubsectionLoop magic firstObject remaining (index + 1) rest es
        else
          match parseXRefRecord magic entry buf with
          | .error e => (es, some e)
          | .ok e2 =>
            readXRefSubsectionLoop magic firstObject remaining (index + 1) rest
              (es.set objIndex e2)
      else
        readXRefSubsectionLoop magic firstObject remaining (index + 1) rest es

/-- `PdfParser::ReadXRefSubsection` (lines 482-579): bounds checks, table
enlargement, whitespace skip, then the record loop.  `bytes` are the device
bytes at the current position. -/
def readXRefSubsection (magic : Nat) (es : List PdfXRefEntry)
    (firstObject objectCount : Int) (bytes : List Char) :
    List PdfXRefEntry × Option PdfErr :=
  if firstObject < 0 then
    (es, some .xrefFirstObjectNegative)
  else if objectCount < 0 then
    (es, some .xrefObjectCountNegative)
  else
    let es1 := enlargeEntries es (firstObject + objectCount).toNat
    let bytes1 := bytes.dropWhile isPdfWhitespace
    readXRefSubsectionLoop magic firstObject.toNat objectCount.toNat 0 bytes1 es1

/-! Helper lemmas about the record scanner. -/

theorem takeWhile_append_all {p : Char → Bool} (l1 l2 : List Char)
    (h : l1.all p) : (l1 ++ l2).takeWhile p = l1 ++ l2.takeWhile p := by
  induction l1 with
  | nil => simp
  | cons a t ih =>
    simp only [List.all_cons, Bool.and_eq_true] at h
    simp [List.takeWhile_cons, h.1, ih h.2]

theorem takeWhile_all {p : Char → Bool} (l : List Char)
    (h : l.all p) : l.takeWhile p = l := by
  induction l with
  | nil => simp
  | cons a t ih =>
    simp only [List.all_cons, Bool.and_eq_true] at h
    simp [List.takeWhile_cons, h.1, ih h.2]

theorem isCSpace_of_isDigit {c : Char} (h : c.isDigit) : isCSpace c = false := by
  simp only [Char.isDigit, ge_iff_le, Bool.and_eq_true, decide_eq_true_eq] at h
  unfold isCSpace
  have h1 : c ≠ ' ' := by intro hc; subst hc; simp at h
  have h2 : c ≠ '\t' := by intro hc; subst hc; simp at h
  have h3 : c ≠ '\n' := by intro hc; subst hc; simp at h
  have h4 : c ≠ '\x0b' := by intro hc; subst hc; simp at h
  have h5 : c ≠ '\x0c' := by intro hc; subst hc; simp at h
  have h6 : c ≠ '\r' := by intro hc; subst hc; simp at h
  simp [h1, h2, h3, h4, h5, h6]

theorem ne_nul_of_isDigit {c : Char} (h : c.isDigit) : c ≠ '\x00' := by
  intro hc
  subst hc
  simp [Char.isDigit] at h

theorem digitsVal_lt (ds : List Char) (h : ds.all Char.isDigit) :
    digitsVal ds < 10 ^ ds.length := by
  suffices H : ∀ acc, ds.all Char.isDigit = true →
      ds.foldl (fun acc c => acc * 10 + (c.toNat - '0'.toNat)) acc <
        (acc + 1) * 10 ^ ds.length by
    have := H 0 h
    simpa [digitsVal] using this
  clear h
  induction ds with
  | nil => intro acc _; simp
  | cons a t ih =>
    intro acc h
    simp only [List.all_cons, Bool.and_eq_true] at h
    have hlt : a.toNat - '0'.toNat ≤ 9 := by
      have hv := h.1
      simp only [Char.isDigit, ge_iff_le, Bool.and_eq_true, decide_eq_true_eq] at hv
      have hup : a.toNat ≤ 57 := hv.2
      have h0 : ('0' : Char).toNat = 48 := by decide
      omega
    calc List.foldl (fun acc c => acc * 10 + (c.toNat - '0'.toNat))
          (acc * 10 + (a.toNat - '0'.toNat)) t
        < (acc * 10 + (a.toNat - '0'.toNat) + 1) * 10 ^ t.length := ih _ h.2
      _ ≤ ((acc + 1) * 10) * 10 ^ t.length := by
          apply Nat.mul_le_mul_right
          omega
      _ = (acc + 1) * 10 ^ (t.length + 1) := by ring
      _ = (acc + 1) * 10 ^ (a :: t).length := by simp

theorem scanUInt_exact (maxw : Nat) (ds rest : List Char)
    (hlen : ds.length = maxw) (hd : ds.all Char.isDigit) (h0 : 0 < maxw) :
    scanUInt maxw (ds ++ rest) = some (digitsVal ds, rest) := by
  obtain ⟨a, t, rfl⟩ : ∃ a t, ds = a :: t := by
    cases ds with
    | nil => simp at hlen; omega
    | cons a t => exact ⟨a, t, rfl⟩
  simp only [List.all_cons, Bool.and_eq_true] at hd
  have hsp : isCSpace a = false := isCSpace_of_isDigit hd.1
  unfold scanUInt
  have hdrop : List.dropWhile isCSpace (a :: t ++ rest) = a :: t ++ rest := by
    simp [List.dropWhile_cons, hsp]
  rw [hdrop]
  have htake : List.take maxw (a :: t ++ rest) = a :: t := by
    rw [← hlen]
    exact List.take_left (a :: t) rest
  have htw : List.takeWhile Char.isDigit (a :: t) = a :: t :=
    takeWhile_all _ (by simp [hd.1, hd.2])
  have hdropn : List.drop (a :: t).length (a :: t ++ rest) = rest :=
    List.drop_left (a :: t) rest
  dsimp only
  rw [htake, htw]
  simp [hdropn]

theorem scanUInt_space (maxw : Nat) (s : List Char) :
    scanUInt maxw (' ' :: s) = scanUInt maxw s := by
  unfold scanUInt
  simp [List.dropWhile_cons, isCSpace]

/-- Normal form of `scanXRefRecord` on a record in the canonical 20-byte
layout `digits(10) SP digits(5) SP type eol1 eol2`. -/
theorem scanXRefRecord_canonical (d1 d2 : List Char) (c e1 e2 : Char)
    (h1 : d1.length = 10) (hd1 : d1.all Char.isDigit)
    (h2 : d2.length = 5) (hd2 : d2.all Char.isDigit) :
    scanXRefRecord (d1 ++ ' ' :: (d2 ++ ' ' :: [c, e1, e2])) =
      (match ([c, e1, e2].takeWhile (· ≠ '\x00')).dropWhile isCSpace with
       | [] => (2, digitsVal d1, digitsVal d2, '\x00', '\x00', '\x00')
       | [a] => (3, digitsVal d1, digitsVal d2, a, '\x00', '\x00')
       | [a, b] => (4, digitsVal d1, digitsVal d2, a, b, '\x00')
       | a :: b :: c2 :: _ => (5, digitsVal d1, digitsVal d2, a, b, c2)) := by
  unfold scanXRefRecord
  have hnul1 : d1.all (fun x => decide (x ≠ '\x00')) = true := by
    rw [List.all_eq_true]
    intro x hx
    exact decide_eq_true (ne_nul_of_isDigit (by
      have := List.all_eq_true.mp hd1 x hx
      exact this))
  have hnul2 : d2.all (fun x => decide (x ≠ '\x00')) = true := by
    rw [List.all_eq_true]
    intro x hx
    exact decide_eq_true (ne_nul_of_isDigit (by
      have := List.all_eq_true.mp hd2 x hx
      exact this))
  have hs : List.takeWhile (fun x => decide (x ≠ '\x00'))
        (d1 ++ ' ' :: (d2 ++ ' ' :: [c, e1, e2])) =
      d1 ++ ' ' :: (d2 ++ ' ' ::
        List.takeWhile (fun x => decide (x ≠ '\x00')) [c, e1, e2]) := by
    rw [takeWhile_append_all _ _ hnul1]
    rw [List.takeWhile_cons]
    rw [if_pos (by decide)]
    rw [takeWhile_append_all _ _ hnul2]
    rw [List.takeWhile_cons]
    rw [if_pos (by decide)]
  rw [hs]
  dsimp only
  rw [scanUInt_exact 10 d1 _ h1 hd1 (by norm_num)]
  dsimp only
  rw [scanUInt_space]
  rw [scanUInt_exact 5 d2 _ h2 hd2 (by norm_num)]
  dsimp only
  rw [List.dropWhile_cons]
  rw [if_pos (by decide)]
  generalize List.dropWhile isCSpace
    (List.takeWhile (fun x => decide (x ≠ '\x00')) [c, e1, e2]) = t3
  rcases t3 with _ | ⟨a, _ | ⟨b, _ | ⟨c2, tl⟩⟩⟩ <;> rfl

/-! ## Trailer dictionaries and `PdfParser::MergeTrailer` -/

/-- A PDF object value, restricted to what the trailer handling of the
modelled code distinguishes (`IsNull`, `IsReference`, `IsDictionary`,
`IsName`, numbers). -/
inductive PdfVal where
  | null
  | num (n : Int)
  | ref (obj gen : Nat)
  | dict
  | name (s : String)
  | other
  deriving DecidableEq, Repr

/-- A trailer dictionary restricted to the keys the parser reads: the five
keys of `PdfParser::MergeTrailer` (Size, Root, Encrypt, Info, ID) plus the
Prev and XRefStm offsets read by `PdfParser::ReadNextTrailer`. -/
structure PdfTrailerDict where
  size : Option PdfVal := none
  root : Option PdfVal := none
  encrypt : Option PdfVal := none
  info : Option PdfVal := none
  id : Option PdfVal := none
  prev : Option Nat := none
  xrefStm : Option Nat := none
  deriving DecidableEq, Repr

/-- One key of `PdfParser::MergeTrailer` (lines 233-257): the key is copied
from the incoming trailer only when the main trailer does not have it yet. -/
def mergeTrailerKey (mainv incomingv : Option PdfVal) : Option PdfVal :=
  match mainv with
  | some v => some v
  | none => incomingv

/-- `PdfParser::MergeTrailer` (lines 233-257): merge the five keys Size,
Root, Encrypt, Info, ID of an older revision's trailer into the main
trailer; other keys of the main trailer (such as Prev) are untouched. -/
def mergeTrailer (main incoming : PdfTrailerDict) : PdfTrailerDict :=
  { main with
    size := mergeTrailerKey main.size incoming.size
    root := mergeTrailerKey main.root incoming.root
    encrypt := mergeTrailerKey main.encrypt incoming.encrypt
    info := mergeTrailerKey main.info incoming.info
    id := mergeTrailerKey main.id incoming.id }

/-- The trailer accumulation step shared by `PdfParser::ReadNextTrailer`
(lines 268-278) and `PdfParser::ReadXRefStreamContents` (lines 599-608):
the first trailer encountered becomes `m_Trailer` wholesale, later ones
are merged into it. -/
def accumTrailer (st : Option PdfTrailerDict) (t : PdfTrailerDict) :
    Option PdfTrailerDict :=
  match st with
  | none => some t
  | some m => some (mergeTrailer m t)

/-- The main trailer obtained after the walk encounters the given trailers
in order (newest revision first). -/
def mergeTrailerChain (ts : List PdfTrailerDict) : Option PdfTrailerDict :=
  ts.foldl accumTrailer none

/-- Spec-side characterization of the merged-trailer rule, following the
spec's words: for each key, "the first value encountered while walking
newest→oldest wins". -/
def specFirstWins : List (Option PdfVal) → Option PdfVal
  | [] => none
  | none :: l => specFirstWins l
  | some v :: _ => some v

theorem specFirstWins_cons (x : Option PdfVal) (l : List (Option PdfVal)) :
    specFirstWins (x :: l) = mergeTrailerKey x (specFirstWins l) := by
  cases x <;> rfl

theorem mergeTrailerKey_assoc (a b c : Option PdfVal) :
    mergeTrailerKey (mergeTrailerKey a b) c =
      mergeTrailerKey a (mergeTrailerKey b c) := by
  cases a <;> cases b <;> rfl

theorem foldl_accumTrailer_key (f : PdfTrailerDict → Option PdfVal)
    (hf : ∀ a b, f (mergeTrailer a b) = mergeTrailerKey (f a) (f b))
    (ts : List PdfTrailerDict) :
    ∀ m : PdfTrailerDict,
      Option.elim (ts.foldl accumTrailer (some m)) none f =
        specFirstWins (f m :: ts.map f) := by
  induction ts with
  | nil =>
    intro m
    rw [specFirstWins_cons]
    cases hm : f m <;> simp [mergeTrailerKey, specFirstWins] <;> exact hm
  | cons t ts ih =>
    intro m
    have : (t :: ts).foldl accumTrailer (some m) =
        ts.foldl accumTrailer (some (mergeTrailer m t)) := rfl
    rw [this, ih (mergeTrailer m t)]
    rw [hf m t]
    simp only [List.map_cons, specFirstWins_cons]
    rw [mergeTrailerKey_assoc]

/-- C4: for each of the trailer keys Root, Info, Encrypt, ID and Size the
merged trailer keeps the first value encountered while walking revisions
newest to oldest (for every chain of trailers), and once a key is set in
the main trailer no later (older) trailer merge ever changes it. -/
theorem c4_trailer_merge_first_wins (ts : List PdfTrailerDict)
    (m t : PdfTrailerDict) :
    (Option.elim (mergeTrailerChain ts) none PdfTrailerDict.size =
        specFirstWins (ts.map PdfTrailerDict.size) ∧
      Option.elim (mergeTrailerChain ts) none PdfTrailerDict.root =
        specFirstWins (ts.map PdfTrailerDict.root) ∧
      Option.elim (mergeTrailerChain ts) none PdfTrailerDict.encrypt =
        specFirstWins (ts.map PdfTrailerDict.encrypt) ∧
      Option.elim (mergeTrailerChain ts) none PdfTrailerDict.info =
        specFirstWins (ts.map PdfTrailerDict.info) ∧
      Option.elim (mergeTrailerChain ts) none PdfTrailerDict.id =
        specFirstWins (ts.map PdfTrailerDict.id)) ∧
    (∀ v, m.size = some v → (mergeTrailer m t).size = some v) ∧
    (∀ v, m.root = some v → (mergeTrailer m t).root = some v) ∧
    (∀ v, m.encrypt = some v → (mergeTrailer m t).encrypt = some v) ∧
    (∀ v, m.info = some v → (mergeTrailer m t).info = some v) ∧
    (∀ v, m.id = some v → (mergeTrailer m t).id = some v) := by
  constructor
  · cases ts with
    | nil => exact ⟨rfl, rfl, rfl, rfl, rfl⟩
    | cons t0 ts =>
      refine ⟨?_, ?_, ?_, ?_, ?_⟩ <;>
        exact foldl_accumTrailer_key _ (fun a b => rfl) ts t0
  · refine ⟨?_, ?_, ?_, ?_, ?_⟩ <;>
      (intro v hv; simp [mergeTrailer, mergeTrailerKey, hv])

/-! ## The revision walk: `ReadXRefContents` / `ReadNextTrailer` /
`ReadXRefStreamContents` -/

/-- One cross-reference section as found at some byte offset of the
document: either a classic `xref` table (its subsections as
`(firstObject, objectCount, record bytes)` triples, followed by a trailer
token when one is present), or a cross-reference stream.  The stream case
is modelled from the spec (the `PdfXRefStreamParserObject` sources are not
part of the excerpt) at the level of its parsed output: the `(object
number, entry)` records it decodes, and its trailer dictionary. -/
inductive XRefSect where
  | classic (subs : List (Int × Int × List Char))
      (trailer : Option PdfTrailerDict)
  | xstream (ents : List (Nat × PdfXRefEntry)) (trailer : PdfTrailerDict)
  deriving DecidableEq

/-- The portions of an input document the revision walk reads: the
cross-reference sections by byte offset, the `startxref` offset, and the
header/end-marker facts checked by `IsPdfFile`, `CheckEOFMarker` and
`FindXRef`. -/
structure PdfDocModel where
  sections : List (Nat × XRefSect)
  startxref : Nat
  versionAtLeast13 : Bool := true
  hasPdfHeader : Bool := true
  hasEOFMarker : Bool := true
  eofAtEnd : Bool := true
  hasStartxref : Bool := true
  magicOffset : Nat := 0
  passwordOk : Bool := true
  deriving DecidableEq

/-- Dereference a byte offset to the section found there. -/
def sectionAt (doc : PdfDocModel) (offset : Nat) : Option XRefSect :=
  doc.sections.lookup offset

/-- The mutable parser state the walk updates (`m_entries`, `m_Trailer`,
`m_visitedXRefOffsets`, `m_IncrementalUpdateCount`, `m_HasXRefStream`),
plus the warnings logged through `mm::LogMessage`. -/
structure ParserState where
  entries : List PdfXRefEntry := []
  trailer : Option PdfTrailerDict := none
  visitedXRefOffsets : List Nat := []
  incrementalUpdateCount : Nat := 0
  hasXRefStream : Bool := false
  warnings : List String := []
  deriving DecidableEq

/-- The state of a freshly constructed parser: every member
`PdfParser::Reset` (lines 92-112) clears is at its reset value, and the
visited-offset set is empty because it is default-constructed — not
because `Reset` clears it. -/
def ParserState.initial : ParserState := { entries := [] }

/-- `PdfParser::Reset` (lines 92-112): clears the entry table, the
trailer, the xref-stream flag and the counters, but never touches
`m_visitedXRefOffsets` — no statement of the parser ever clears the
visited-offset set — and messages already logged through `mm::LogMessage`
are external output that a reset cannot retract. -/
def ParserState.reset (st : ParserState) : ParserState :=
  { entries := [], trailer := none,
    visitedXRefOffsets := st.visitedXRefOffsets,
    incrementalUpdateCount := 0, hasXRefStream := false,
    warnings := st.warnings }

/-- `MaxRecursionDepth` from the `PdfRecursionGuard` constructor
(`PdfParser.cpp` line 56). -/
def MaxRecursionDepth : Nat := 500

/-- The `PdfRecursionGuard` constructor: increment the depth and raise
`InvalidXRef` when it exceeds `MaxRecursionDepth` (the embedding passes the
incremented depth to the guarded body; the RAII decrement on scope exit is
the body running at the old depth afterwards). -/
def recursionGuardCheck (depth : Nat) : Except PdfErr Nat :=
  let d := depth + 1
  if d > MaxRecursionDepth then .error .recursionLimit else .ok d

/-- `PdfXRefStreamParserObject::ReadXRefTable`.  Modelled from the spec
(the sources are not part of the excerpt): the decoded records fill the
entry table with the same first-seen-wins rule as classic subsections
(only slots not yet parsed are written), enlarging the table as needed. -/
def applyStreamEntries : List PdfXRefEntry → List (Nat × PdfXRefEntry) →
    List PdfXRefEntry
  | es, [] => es
  | es, (i, e) :: rest =>
    let es1 := enlargeEntries es (i + 1)
    let es2 :=
      if h : i < es1.length then
        if (es1.get ⟨i, h⟩).parsed then es1 else es1.set i e
      else es1
    applyStreamEntries es2 rest

/-- The `for (xrefSectionCount...)` subsection loop of
`ReadXRefContents` (lines 410-452): the session counter is bounded by
`MAX_XREF_SESSION_COUNT`; with `positionAtEnd` the records are skipped;
errors with code `NoNumber`, `InvalidXRef` or `UnexpectedEOF` break the
loop (the entries read so far are kept) and anything else propagates. -/
def readClassicSubsections (magic : Nat) :
    List (Int × Int × List Char) → Nat → List PdfXRefEntry → Bool →
    List PdfXRefEntry × Option PdfErr
  | [], count, es, _ =>
    if count = MAX_XREF_SESSION_COUNT then (es, some .tooManyXRefSections)
    else (es, none)
  | (first, cnt, bytes) :: rest, count, es, positionAtEnd =>
    if count = MAX_XREF_SESSION_COUNT then (es, some .tooManyXRefSections)
    else if positionAtEnd then
      readClassicSubsections magic rest (count + 1) es positionAtEnd
    else
      match readXRefSubsection magic es first cnt bytes with
      | (es1, none) => readClassicSubsections magic rest (count + 1) es1 positionAtEnd
      | (es1, some e) =>
        if e.code = PdfErrorCode.noNumber ∨ e.code = PdfErrorCode.invalidXRef
            ∨ e.code = PdfErrorCode.unexpectedEOF then
          (es1, none)
        else
          (es1, some e)

/-- The three mutually recursive guarded reads of the revision walk, as
one structurally recursive function over the embedding's fuel.  Every one
of `ReadXRefContents`, `ReadNextTrailer` and `ReadXRefStreamContents`
starts by constructing a `PdfRecursionGuard`, so the guard check is
factored in front of the dispatch. -/
inductive WalkCall where
  | contents (offset : Nat) (positionAtEnd : Bool)
  | nextTrailer (tok : Option PdfTrailerDict)
  | streamContents (offset : Nat) (readOnlyTrailer : Bool)
  deriving DecidableEq

/-- The body of the revision walk.  `fuel` only bounds the embedding's
recursion and is shown never to run out from the public entry (`none`
marks exhaustion); the code's own bound is the recursion guard.

* `.contents` is `PdfParser::ReadXRefContents` (lines 350-466): cycle
  check against `m_visitedXRefOffsets`, classic-table subsection loop
  followed by `ReadNextTrailer` (whose `NoTrailer` error is swallowed),
  or delegation to `ReadXRefStreamContents` when the token is not `xref`.
* `.nextTrailer` is `PdfParser::ReadNextTrailer` (lines 259-325): trailer
  token check, trailer set/merge, `XRefStm` hybrid handling, then the
  `Prev` chain — a `Prev` offset already visited is skipped with a logged
  warning, an unvisited one recurses into `ReadXRefContents`.
* `.streamContents` is `PdfParser::ReadXRefStreamContents` (lines
  581-639): stream object parse (failing on content that is not a
  cross-reference stream), trailer set/merge, optionally only the
  trailer, then the entry table fill and the `Prev` chain (recursing
  through `ReadXRefContents`, with `NoNumber` errors forgiven). -/
def walk (doc : PdfDocModel) : Nat -> WalkCall -> Nat -> ParserState ->
    Option (Except PdfErr ParserState)
  | 0, _, _, _ => none
  | fuel + 1, call, depth, st =>
    match recursionGuardCheck depth with
    | .error e => some (.error e)
    | .ok depth1 =>
      match call with
      | .contents offset positionAtEnd =>
        if offset ∈ st.visitedXRefOffsets then
          some (.error (.cycleDetected offset))
        else
          let st1 := { st with
            visitedXRefOffsets := offset :: st.visitedXRefOffsets }
          match sectionAt doc offset with
          | none => some (.error .noXRefToken)
          | some (.classic subs trailerTok) =>
            match readClassicSubsections doc.magicOffset subs 0 st1.entries
                positionAtEnd with
            | (_, some e) => some (.error e)
            | (es1, none) =>
              let st2 := { st1 with entries := es1 }
              match walk doc fuel (.nextTrailer trailerTok) depth1 st2 with
              | none => none
              | some (.error e) =>
                if e.code = PdfErrorCode.noTrailer then some (.ok st2)
                else some (.error e)
              | some (.ok st3) => some (.ok st3)
          | some (.xstream _ _) =>
            if !doc.versionAtLeast13 then some (.error .noXRefToken)
            else
              walk doc fuel (.streamContents offset positionAtEnd) depth1
                { st1 with hasXRefStream := true }
      | .nextTrailer trailerTok =>
        match trailerTok with
        | none => some (.error .noTrailerToken)
        | some t =>
          let st1 := { st with trailer := accumTrailer st.trailer t }
          let afterStm : Option (Except PdfErr ParserState) :=
            match t.xrefStm with
            | none => some (.ok st1)
            | some xs =>
              let st2 :=
                if t.prev = none then
                  { st1 with
                    incrementalUpdateCount := st1.incrementalUpdateCount + 1 }
                else st1
              walk doc fuel (.streamContents xs false) depth1 st2
          match afterStm with
          | none => none
          | some (.error e) => some (.error e)
          | some (.ok st3) =>
            match t.prev with
            | none => some (.ok st3)
            | some p =>
              let st4 := { st3 with
                incrementalUpdateCount := st3.incrementalUpdateCount + 1 }
              if p ∈ st4.visitedXRefOffsets then
                some (.ok { st4 with warnings := st4.warnings ++
                  ["XRef contents requested twice, skipping the second read"] })
              else
                walk doc fuel (.contents p false) depth1 st4
      | .streamContents offset readOnlyTrailer =>
        match sectionAt doc offset with
        | some (.xstream ents t) =>
          let st1 := { st with trailer := accumTrailer st.trailer t }
          if readOnlyTrailer then some (.ok st1)
          else
            let st2 := { st1 with
              entries := applyStreamEntries st1.entries ents }
            match t.prev with
            | some p =>
              if p ≠ offset then
                let st3 := { st2 with
                  incrementalUpdateCount := st2.incrementalUpdateCount + 1 }
                match walk doc fuel (.contents p readOnlyTrailer) depth1 st3 with
                | none => none
                | some (.error e) =>
                  if e.code = PdfErrorCode.noNumber then some (.ok st3)
                  else some (.error e)
                | some (.ok st4) => some (.ok st4)
              else some (.ok st2)
            | none => some (.ok st2)
        | _ => some (.error .invalidXRefStreamObj)

/-- `PdfParser::ReadXRefContents`, as an instance of `walk`. -/
def readXRefContents (doc : PdfDocModel) (fuel offset depth : Nat)
    (st : ParserState) (positionAtEnd : Bool) :
    Option (Except PdfErr ParserState) :=
  walk doc fuel (.contents offset positionAtEnd) depth st

/-- `PdfParser::ReadNextTrailer`, as an instance of `walk`. -/
def readNextTrailer (doc : PdfDocModel) (fuel : Nat)
    (trailerTok : Option PdfTrailerDict) (depth : Nat) (st : ParserState) :
    Option (Except PdfErr ParserState) :=
  walk doc fuel (.nextTrailer trailerTok) depth st

/-- `PdfParser::ReadXRefStreamContents`, as an instance of `walk`. -/
def readXRefStreamContents (doc : PdfDocModel) (fuel offset depth : Nat)
    (st : ParserState) (readOnlyTrailer : Bool) :
    Option (Except PdfErr ParserState) :=
  walk doc fuel (.streamContents offset readOnlyTrailer) depth st

theorem recursionGuardCheck_ok {depth d : Nat}
    (h : recursionGuardCheck depth = .ok d) :
    d = depth + 1 ∧ depth + 1 ≤ MaxRecursionDepth := by
  unfold recursionGuardCheck at h
  by_cases hd : depth + 1 > MaxRecursionDepth
  · simp [hd] at h
  · simp [hd] at h
    omega

theorem recursionGuardCheck_limit {depth : Nat} (h : MaxRecursionDepth ≤ depth) :
    recursionGuardCheck depth = .error .recursionLimit := by
  unfold recursionGuardCheck
  have : depth + 1 > MaxRecursionDepth := by omega
  simp [this]

/-- The revision walk never exhausts its fuel when entered with fuel at
least `MaxRecursionDepth + 2 - depth`: the recursion guard always stops
the recursion first. -/
theorem walk_total (fuel : Nat) :
    ∀ call doc depth st, depth ≤ MaxRecursionDepth →
      MaxRecursionDepth + 2 ≤ fuel + depth →
      walk doc fuel call depth st ≠ none := by
  induction fuel with
  | zero =>
    intro call doc depth st h1 h2
    exfalso
    omega
  | succ fuel ih =>
    intro call doc depth st hdep hfuel
    simp only [walk]
    split
    · simp
    · rename_i d hrg
      obtain ⟨rfl, hlim⟩ := recursionGuardCheck_ok hrg
      rcases call with ⟨offset, p⟩ | tok | ⟨offset, r⟩ <;> dsimp only
      · split
        · simp
        · split
          · simp
          · split
            · simp
            · split
              · rename_i h
                exact absurd h (ih _ doc _ _ (by omega) (by omega))
              · split <;> simp
              · simp
          · split
            · simp
            · exact ih _ doc _ _ (by omega) (by omega)
      · rcases tok with _ | t
        · simp
        · dsimp only
          rcases hx : t.xrefStm with _ | xs <;> simp only [hx]
          · rcases hp : t.prev with _ | pp <;> simp only [hp]
            · simp
            · split
              · simp
              · exact ih _ doc _ _ (by omega) (by omega)
          · split
            · rename_i h
              exact absurd h (ih _ doc _ _ (by omega) (by omega))
            · simp
            · rcases hp : t.prev with _ | pp <;> simp only [hp]
              · simp
              · split
                · simp
                · exact ih _ doc _ _ (by omega) (by omega)
      · split
        · split
          · simp
          · split
            · split
              · split
                · rename_i h
                  exact absurd h (ih _ doc _ _ (by omega) (by omega))
                · split <;> simp
                · simp
              · simp
            · simp
        · simp

/-! ## The object-materialization phase: `ReadObjects` /
`ReadObjectsInternal` / `ReadCompressedObjectFromStream` -/

/-- `MaxGenerationNumber`, the largest valid generation number (16-bit).
Modelled from the spec ("incrementing generation, capped to the valid
generation range"). -/
def MaxGenerationNumber : Nat := 65535

/-- The repository state the loader populates (the relevant parts of
`PdfIndirectObjectList`): the pushed objects, represented by their
indirect references, the free list, and the messages logged through
`mm::LogMessage`. -/
structure Repo where
  objects : List (Nat × Nat) := []
  freeObjects : List (Nat × Nat) := []
  log : List String := []
  deriving DecidableEq

def Repo.logMsg (r : Repo) (msg : String) : Repo :=
  { r with log := r.log ++ [msg] }

/-- `PdfIndirectObjectList::PushObject`.  Modelled from the spec/header
(the list implementation is not part of the excerpt): insert the object
into the live set. -/
def Repo.pushObject (r : Repo) (ref : Nat × Nat) : Repo :=
  { r with objects := r.objects ++ [ref] }

/-- `PdfIndirectObjectList::AddFreeObject`.  Modelled from the spec/header:
mark the reference reusable by adding it to the free list. -/
def Repo.addFreeObject (r : Repo) (ref : Nat × Nat) : Repo :=
  { r with freeObjects := r.freeObjects ++ [ref] }

/-- `PdfIndirectObjectList::SafeAddFreeObject`.  Modelled from the
spec/header: increment the generation and add the reference only when the
incremented generation is still in the valid range; otherwise the number
is retired. -/
def Repo.safeAddFreeObject (r : Repo) (ref : Nat × Nat) : Repo :=
  if ref.2 + 1 ≤ MaxGenerationNumber then
    { r with freeObjects := r.freeObjects ++ [(ref.1, ref.2 + 1)] }
  else r

/-- The body of the first loop of `PdfParser::ReadObjectsInternal`
(lines 709-813) for the entry at index `i`.  An in-use entry with a
positive offset becomes a (delayed-load) parser object — the constructor
rejects the non-indirect reference `(0, 0)` before the surrounding `try`
block; an in-use entry with offset 0 and generation 0 is a hard error in
strict mode and an implicit free object `(i, 1)` otherwise; an in-use
entry with offset 0 and nonzero generation falls through both branches
and is skipped; a free entry other than number 0 goes to the free list
with its generation incremented; compressed entries wait for the second
pass.  The embedding models the load-on-demand, unencrypted push path, on
which the `try` body cannot fail.  Generations are truncated to 16 bits
as by the `uint16_t` casts. -/
def readObjectEntry (strict ignoreBroken : Bool) (i : Nat)
    (entry : PdfXRefEntry) (repo : Repo) : Repo × Option PdfErr :=
  if entry.parsed then
    match entry.type with
    | .inUse =>
      if entry.offset > 0 then
        if i = 0 ∧ entry.generation % 65536 = 0 then
          (repo, some .invalidIndirectReference)
        else
          (repo.pushObject (i, entry.generation % 65536), none)
      else if entry.generation = 0 then
        if strict then
          (repo, some .zeroOffsetStrict)
        else
          ((repo.addFreeObject (i, 1)).logMsg
            "Treating object as a free object", none)
      else
        (repo, none)
    | .free =>
      if i ≠ 0 then
        (repo.safeAddFreeObject (i, entry.generation % 65536), none)
      else
        (repo, none)
    | .compressed => (repo, none)
    | .unknown => (repo, some .invalidEntryEnum)
  else if i ≠ 0 then
    (repo.addFreeObject (i, 1), none)
  else
    (repo, none)

/-- The first loop of `ReadObjectsInternal` over the whole entry table;
an error aborts the loop and propagates, keeping the repository mutations
made so far. -/
def readObjectsPass1 (strict ignoreBroken : Bool) :
    List PdfXRefEntry → Nat → Repo → Repo × Option PdfErr
  | [], _, repo => (repo, none)
  | e :: es, i, repo =>
    match readObjectEntry strict ignoreBroken i e repo with
    | (repo1, none) => readObjectsPass1 strict ignoreBroken es (i + 1) repo1
    | (repo1, some err) => (repo1, some err)

/-- The object numbers of all parsed compressed entries stored in
container `objNo` (`ReadCompressedObjectFromStream` lines 876-885). -/
def compressedIdsFor (entries : List PdfXRefEntry) (objNo : Nat) : List Nat :=
  (entries.enum.filter (fun p =>
    p.2.parsed && (p.2.type == XRefEntryType.compressed)
      && (p.2.objectNumber == objNo))).map Prod.fst

/-- `PdfParser::ReadCompressedObjectFromStream` (lines 849-889): each
container is parsed once (tracked in `m_ObjectStreams`); a missing
container object is logged in lenient mode and a `NoObject` error
otherwise; the parse of the container stream is modelled from the spec
(the `PdfObjectStreamParser` sources are not part of the excerpt): it
materializes every listed object, with generation 0. -/
def readCompressedFromStream (ignoreBroken : Bool)
    (entries : List PdfXRefEntry) (objNo : Nat) (streams : List Nat)
    (repo : Repo) : (List Nat × Repo) × Option PdfErr :=
  if objNo ∈ streams then ((streams, repo), none)
  else
    let streams1 := objNo :: streams
    if (objNo, 0) ∈ repo.objects then
      ((streams1, { repo with objects := repo.objects ++
        (compressedIdsFor entries objNo).map (fun i => (i, 0)) }), none)
    else if ignoreBroken then
      ((streams1, repo.logMsg "Loading of container object failed"), none)
    else
      ((streams1, repo), some (.containerObjectMissing objNo))

/-- The second loop of `ReadObjectsInternal` (lines 821-831): resolve
every parsed compressed entry through its container. -/
def readObjectsPass2 (ignoreBroken : Bool) (entries : List PdfXRefEntry) :
    List PdfXRefEntry → List Nat → Repo → (List Nat × Repo) × Option PdfErr
  | [], streams, repo => ((streams, repo), none)
  | e :: rest, streams, repo =>
    if e.parsed && (e.type == XRefEntryType.compressed) then
      match readCompressedFromStream ignoreBroken entries e.objectNumber
          streams repo with
      | (sr, none) => readObjectsPass2 ignoreBroken entries rest sr.1 sr.2
      | (sr, some err) => (sr, some err)
    else
      readObjectsPass2 ignoreBroken entries rest streams repo

/-- `PdfParser::ReadObjectsInternal` (lines 706-847) on the load-on-demand
path used by `PdfMemDocument::loadFromDevice` (eager stream loading and
`UpdateDocumentVersion`, which touches only `m_PdfVersion`, are outside
the model). -/
def readObjectsInternal (strict ignoreBroken : Bool)
    (entries : List PdfXRefEntry) (repo : Repo) : Repo × Option PdfErr :=
  match readObjectsPass1 strict ignoreBroken entries 0 repo with
  | (repo1, some e) => (repo1, some e)
  | (repo1, none) =>
    match readObjectsPass2 ignoreBroken entries entries [] repo1 with
    | ((_, repo2), none) => (repo2, none)
    | ((_, repo2), some e) => (repo2, some e)

/-- Clear the `Parsed` flag of slot `i` (done for the encryption
dictionary's entry, `ReadObjects` line 671). -/
def setParsedFalse (es : List PdfXRefEntry) (i : Nat) : List PdfXRefEntry :=
  match es.get? i with
  | some e => es.set i { e with parsed := false }
  | none => es

/-- `PdfParser::ReadObjects` (lines 641-704): the encryption dictionary is
located and authenticated before any other object is materialized (its
table entry is marked unparsed and it is never pushed into the object
list); an authentication failure surfaces `InvalidPassword`.  The parse
of the encryption dictionary itself is assumed to succeed (its bytes are
not part of the document model). -/
def readObjects (doc : PdfDocModel) (strict ignoreBroken : Bool)
    (st : ParserState) (repo : Repo) : Repo × ParserState × Option PdfErr :=
  let enc : Except PdfErr ParserState :=
    match st.trailer with
    | none => .ok st
    | some t =>
      match t.encrypt with
      | none => .ok st
      | some .null => .ok st
      | some (.ref i _) =>
        if i = 0 ∨ st.entries.length ≤ i then
          .error .encryptNonexistentObject
        else
          let st1 := { st with entries := setParsedFalse st.entries i }
          if doc.passwordOk then .ok st1 else .error .badPassword
      | some .dict =>
        if doc.passwordOk then .ok st else .error .badPassword
      | some _ => .error .encryptBadType
  match enc with
  | .error e => (repo, st, some e)
  | .ok st1 =>
    match readObjectsInternal strict ignoreBroken st1.entries repo with
    | (repo1, none) => (repo1, st1, none)
    | (repo1, some e) => (repo1, st1, some e)

/-! ## `PdfParser::Parse` -/

/-- The fuel the public entry hands the walk; `walk_total` shows it can
never be exhausted. -/
def walkFuel : Nat := MaxRecursionDepth + 2

/-- The entries-versus-`/Size` consistency warning of
`ReadDocumentStructure` (lines 190-202). -/
def sizeWarning (st : ParserState) : ParserState :=
  match st.trailer with
  | some t =>
    match t.size with
    | some (.num k) =>
      if 0 ≤ k ∧ k.toNat < st.entries.length then
        { st with warnings := st.warnings ++
          ["There are more objects in this XRef table than specified in the size key of the trailer directory"] }
      else st
    | _ => st
  | none => st

/-- The `try` body of `PdfParser::Parse` (lines 120-127): `IsPdfFile`,
`ReadDocumentStructure` (end-of-file marker, `startxref` discovery, the
xref walk and the `/Size` warning), then `ReadObjects`.  Returns the
repository as mutated so far, the parser state at the point the body
finished or threw, and the outcome; an error raised inside the revision
walk is reported with the pre-walk state (the embedding's `walk` does not
thread partial state through a raised error); `none` is fuel exhaustion
of the embedding, shown unreachable. -/
def parseBody (doc : PdfDocModel) (strict ignoreBroken : Bool)
    (repo : Repo) : Option (Repo × ParserState × Option PdfErr) :=
  if !doc.hasPdfHeader then some (repo, ParserState.initial, some .notAPdfFile)
  else if strict && !doc.eofAtEnd then some (repo, ParserState.initial, some .noEOFMarker)
  else if !strict && !doc.hasEOFMarker then some (repo, ParserState.initial, some .noEOFMarker)
  else if !doc.hasStartxref then some (repo, ParserState.initial, some .noStartXRef)
  else
    match readXRefContents doc walkFuel doc.startxref 0 ParserState.initial false with
    | none => none
    | some (.error e) => some (repo, ParserState.initial, some e)
    | some (.ok st1) =>
      let st2 := sizeWarning st1
      match readObjects doc strict ignoreBroken st2 repo with
      | (repo1, st3, none) => some (repo1, st3, none)
      | (repo1, st3, some e) => some (repo1, st3, some e)

/-- The outcome of a load: the final parser state, the repository, and
the surfaced error if the load failed. -/
structure LoadResult where
  parser : ParserState
  repo : Repo
  err : Option PdfErr
  deriving DecidableEq

/-- `PdfParser::Parse` (lines 114-143): reset, run the body, and on an
error other than `InvalidPassword` call `Reset` — which clears the
parser's entry table, trailer and counters but retains the visited-offset
set and does not touch the repository's object list — and rethrow; an
`InvalidPassword` error performs no cleanup so that the caller can set a
password and parse again. -/
def parse (doc : PdfDocModel) (strict ignoreBroken : Bool) (repo : Repo) :
    Option LoadResult :=
  match parseBody doc strict ignoreBroken repo with
  | none => none
  | some (repo1, st, none) => some { parser := st, repo := repo1, err := none }
  | some (repo1, st, some e) =>
    if e.code = PdfErrorCode.invalidPassword then
      some { parser := st, repo := repo1, err := some e }
    else
      some { parser := st.reset, repo := repo1, err := some e }

/-- An empty repository, the state a fresh `PdfIndirectObjectList` is in. -/
def Repo.empty : Repo := { objects := [] }

/-- `PdfParser::Parse` always returns a result: the embedding's fuel can
never be exhausted, because the recursion guard bounds the walk first. -/
theorem parse_isSome (doc : PdfDocModel) (strict ignoreBroken : Bool)
    (repo : Repo) : (parse doc strict ignoreBroken repo).isSome = true := by
  unfold parse
  have hb : (parseBody doc strict ignoreBroken repo).isSome = true := by
    unfold parseBody
    split
    · simp
    · split
      · simp
      · split
        · simp
        · split
          · simp
          · split
            · rename_i h
              exact absurd h (walk_total walkFuel _ doc 0 ParserState.initial
                (Nat.zero_le _) (by simp [walkFuel]))
            · simp
            · dsimp only
              split <;> simp
  cases hpb : parseBody doc strict ignoreBroken repo with
  | none => rw [hpb] at hb; simp at hb
  | some v =>
    rcases v with ⟨repo1, st, _ | e⟩
    · simp
    · dsimp only
      split <;> simp

/-! ## Theorems for the frozen claims -/

/-- The three-record table of the scenario, as raw device bytes. -/
def c1RecordBytes : List Char :=
  ("0000000000 65535 f\r\n" ++ "0000000018 00000 n\r\n"
    ++ "0000000087 00000 n\r\n").toList

/-- C1: a classic cross-reference subsection with first-object 0 and count 3
whose records are `0000000000 65535 f CRLF`, `0000000018 00000 n CRLF` and
`0000000087 00000 n CRLF`, read with no magic-offset correction into an
empty table, produces exactly: object 0 a Free entry with next-free-number
0 and generation 65535, object 1 an InUse entry at offset 18 with
generation 0, object 2 an InUse entry at offset 87 with generation 0, all
three marked parsed, and no error. -/
theorem c1_classic_subsection_scenario :
    readXRefSubsection 0 [] 0 3 c1RecordBytes =
      ([{ objectNumber := 0, offset := 0, generation := 65535, index := 0,
          type := .free, parsed := true },
        { objectNumber := 0, offset := 18, generation := 0, index := 0,
          type := .inUse, parsed := true },
        { objectNumber := 0, offset := 87, generation := 0, index := 0,
          type := .inUse, parsed := true }], none) := by
  decide

/-- The end-of-line pairs the spec's persisted layout contract declares
legal for a classic 20-byte record: `%c\r\n`, `%c \n`, `%c \r`, i.e.
CR LF, SP LF and SP CR. -/
def specLegalEOL (e1 e2 : Char) : Bool :=
  (e1 = '\r' && e2 = '\n') || (e1 = ' ' && e2 = '\n') || (e1 = ' ' && e2 = '\r')

/-- C7 counterexample: the 20-byte record `0000000018 00000 n LF CR` is
accepted by the record validation of `ReadXRefSubsection` (via `CheckEOL`,
which also admits the pair LF CR), although LF CR is not one of the three
end-of-line sequences of the spec's persisted layout contract, so the
as-stated claim that any other end-of-line sequence raises a format error
is false. -/
theorem c7_record_validation_counterexample :
    (parseXRefRecord 0 PdfXRefEntry.unset
        "0000000018 00000 n\n\r".toList).isOk = true ∧
      specLegalEOL '\n' '\r' = false := by
  decide

theorem checkXRefEntryType_iff (c : Char) :
    checkXRefEntryType c = true ↔ (c = 'n' ∨ c = 'f') := by
  simp [checkXRefEntryType]

theorem checkEOL_iff (e1 e2 : Char) :
    checkEOL e1 e2 = true ↔
      ((e1 = '\r' ∧ e2 = '\n') ∨ (e1 = '\n' ∧ e2 = '\r') ∨
       (e1 = ' ' ∧ e2 = '\n') ∨ (e1 = ' ' ∧ e2 = '\r')) := by
  simp [checkEOL]
  tauto

/-- C7 (amended): a canonical 20-byte record `digits(10) SP digits(5) SP
type eol1 eol2` is accepted by the record validation of
`ReadXRefSubsection` (with no magic-offset correction) if and only if the
type character is `n` or `f` and the end-of-line pair is one of the four
sequences CR LF, LF CR, SP LF or SP CR that `CheckEOL` admits; any
rejected record raises an error whose code is `InvalidXRef`, a format
error. -/
theorem c7_record_validation (entry : PdfXRefEntry) (d1 d2 : List Char)
    (c e1 e2 : Char)
    (h1 : d1.length = 10) (hd1 : d1.all Char.isDigit)
    (h2 : d2.length = 5) (hd2 : d2.all Char.isDigit) :
    ((parseXRefRecord 0 entry (d1 ++ ' ' :: (d2 ++ ' ' :: [c, e1, e2]))).isOk = true ↔
      ((c = 'n' ∨ c = 'f') ∧
        ((e1 = '\r' ∧ e2 = '\n') ∨ (e1 = '\n' ∧ e2 = '\r') ∨
         (e1 = ' ' ∧ e2 = '\n') ∨ (e1 = ' ' ∧ e2 = '\r')))) ∧
    (∀ err, parseXRefRecord 0 entry (d1 ++ ' ' :: (d2 ++ ' ' :: [c, e1, e2])) =
        .error err → err.code = PdfErrorCode.invalidXRef) := by
  have hb := scanXRefRecord_canonical d1 d2 c e1 e2 h1 hd1 h2 hd2
  rw [← checkXRefEntryType_iff, ← checkEOL_iff]
  by_cases hgood : c ≠ '\x00' ∧ isCSpace c = false ∧ e1 ≠ '\x00' ∧ e2 ≠ '\x00'
  · obtain ⟨hc0, hcs, he1, he2⟩ := hgood
    have hX : List.dropWhile isCSpace
        (List.takeWhile (fun x => decide (x ≠ '\x00')) [c, e1, e2]) = [c, e1, e2] := by
      simp [List.takeWhile_cons, List.dropWhile_cons, hc0, he1, he2, hcs]
    rw [hX] at hb
    by_cases hct : checkXRefEntryType c = true
    · by_cases heol : checkEOL e1 e2 = true
      · rcases (checkXRefEntryType_iff c).mp hct with rfl | rfl
        · have hvd : digitsVal d1 < 10 ^ 10 := by
            have := digitsVal_lt d1 hd1
            rwa [h1] at this
          have hnb : ¬ PTRDIFF_MAX < digitsVal d1 := by
            have hp : PTRDIFF_MAX = 9223372036854775807 := by norm_num [PTRDIFF_MAX]
            have hq : (10 : Nat) ^ 10 = 10000000000 := by norm_num
            omega
          constructor
          · simp [parseXRefRecord, hb, heol, checkXRefEntryType,
              xrefEntryTypeFromChar, hnb, Except.isOk, Except.toBool]
          · intro err herr
            simp [parseXRefRecord, hb, heol, checkXRefEntryType,
              xrefEntryTypeFromChar, hnb] at herr
        · constructor
          · simp [parseXRefRecord, hb, heol, checkXRefEntryType,
              xrefEntryTypeFromChar, Except.isOk, Except.toBool]
          · intro err herr
            simp [parseXRefRecord, hb, heol, checkXRefEntryType,
              xrefEntryTypeFromChar] at herr
      · constructor
        · simp [parseXRefRecord, hb, hct, heol, Except.isOk, Except.toBool]
        · intro err herr
          simp only [parseXRefRecord, hb] at herr
          simp [hct, heol] at herr
          subst herr
          rfl
    · constructor
      · simp [parseXRefRecord, hb, hct, Except.isOk, Except.toBool]
      · intro err herr
        simp only [parseXRefRecord, hb] at herr
        simp [hct] at herr
        subst herr
        rfl
  · have hRfalse : ¬ (checkXRefEntryType c = true ∧ checkEOL e1 e2 = true) := by
      rintro ⟨hct, heol⟩
      apply hgood
      have hc := (checkXRefEntryType_iff c).mp hct
      have he := (checkEOL_iff e1 e2).mp heol
      refine ⟨?_, ?_, ?_, ?_⟩
      · rcases hc with rfl | rfl <;> decide
      · rcases hc with rfl | rfl <;> decide
      · rcases he with ⟨rfl, _⟩ | ⟨rfl, _⟩ | ⟨rfl, _⟩ | ⟨rfl, _⟩ <;> decide
      · rcases he with ⟨_, rfl⟩ | ⟨_, rfl⟩ | ⟨_, rfl⟩ | ⟨_, rfl⟩ <;> decide
    have hbad : parseXRefRecord 0 entry (d1 ++ ' ' :: (d2 ++ ' ' :: [c, e1, e2])) =
          .error .invalidXRefEntryType ∨
        parseXRefRecord 0 entry (d1 ++ ' ' :: (d2 ++ ' ' :: [c, e1, e2])) =
          .error .invalidXRefEntryEOL := by
      by_cases hc0 : c = '\x00'
      · subst hc0
        have hX : List.dropWhile isCSpace
            (List.takeWhile (fun x => decide (x ≠ '\x00')) ['\x00', e1, e2]) = [] := by
          simp [List.takeWhile_cons]
        rw [hX] at hb
        left
        simp [parseXRefRecord, hb, checkXRefEntryType]
      · by_cases hcs : isCSpace c = true
        · have hX : List.dropWhile isCSpace
              (List.takeWhile (fun x => decide (x ≠ '\x00')) [c, e1, e2]) =
              List.dropWhile isCSpace
                (List.takeWhile (fun x => decide (x ≠ '\x00')) [e1, e2]) := by
            simp [List.takeWhile_cons, List.dropWhile_cons, hc0, hcs]
          rw [hX] at hb
          have hlen : (List.dropWhile isCSpace
              (List.takeWhile (fun x => decide (x ≠ '\x00')) [e1, e2])).length ≤ 2 := by
            calc (List.dropWhile isCSpace
                  (List.takeWhile (fun x => decide (x ≠ '\x00')) [e1, e2])).length
                ≤ (List.takeWhile (fun x => decide (x ≠ '\x00')) [e1, e2]).length :=
                  (List.dropWhile_sublist _).length_le
              _ ≤ [e1, e2].length := (List.takeWhile_sublist _).length_le
              _ = 2 := rfl
          generalize hg : List.dropWhile isCSpace
            (List.takeWhile (fun x => decide (x ≠ '\x00')) [e1, e2]) = X at hb hlen
          rcases X with _ | ⟨a, _ | ⟨b, _ | ⟨c2, tl⟩⟩⟩
          · left
            simp [parseXRefRecord, hb, checkXRefEntryType]
          · by_cases hta : checkXRefEntryType a = true
            · right
              simp [parseXRefRecord, hb, hta]
            · left
              simp [parseXRefRecord, hb, hta]
          · by_cases hta : checkXRefEntryType a = true
            · right
              simp [parseXRefRecord, hb, hta]
            · left
              simp [parseXRefRecord, hb, hta]
          · simp at hlen
        · rw [Bool.not_eq_true] at hcs
          by_cases he1 : e1 = '\x00'
          · subst he1
            have hX : List.dropWhile isCSpace
                (List.takeWhile (fun x => decide (x ≠ '\x00')) [c, '\x00', e2]) = [c] := by
              simp [List.takeWhile_cons, List.dropWhile_cons, hc0, hcs]
            rw [hX] at hb
            by_cases hta : checkXRefEntryType c = true
            · right
              simp [parseXRefRecord, hb, hta]
            · left
              simp [parseXRefRecord, hb, hta]
          · have he2 : e2 = '\x00' := by
              by_contra he2
              exact hgood ⟨hc0, hcs, he1, he2⟩
            subst he2
            have hX : List.dropWhile isCSpace
                (List.takeWhile (fun x => decide (x ≠ '\x00')) [c, e1, '\x00']) =
                  [c, e1] := by
              simp [List.takeWhile_cons, List.dropWhile_cons, hc0, hcs, he1]
            rw [hX] at hb
            by_cases hta : checkXRefEntryType c = true
            · right
              simp [parseXRefRecord, hb, hta]
            · left
              simp [parseXRefRecord, hb, hta]
    constructor
    · rcases hbad with h | h <;> rw [h] <;>
        simp [Except.isOk, Except.toBool, hRfalse]
    · intro err herr
      rcases hbad with h | h <;> rw [h] at herr <;>
        (simp only [Except.error.injEq] at herr; subst herr; rfl)

/-- Witness for C7: the concrete record `0000000018 00000 n CRLF` is
accepted, obtained through the theorem's equivalence. -/
theorem c7_record_validation_witness :
    (parseXRefRecord 0 PdfXRefEntry.unset
        ("0000000018".toList ++ ' ' ::
          ("00000".toList ++ ' ' :: ['n', '\r', '\n']))).isOk = true :=
  ((c7_record_validation PdfXRefEntry.unset "0000000018".toList
      "00000".toList 'n' '\r' '\n' (by decide) (by decide) (by decide)
      (by decide)).1).mpr (by decide)

/-- The document of the C2 scenario: a single classic revision at byte
offset 100 (which is also the `startxref` offset) whose trailer's `/Prev`
points back at offset 100. -/
def c2Doc : PdfDocModel :=
  { sections := [(100, .classic [(0, 1, "0000000000 65535 f\r\n".toList)]
      (some { size := some (.num 1), root := some .dict, prev := some 100 }))],
    startxref := 100 }

/-- A document whose revisions form a linear `/Prev` chain of `n` classic
sections at offsets `0, 1, ..., n-1`, each pointing at the next. -/
def chainDoc (n : Nat) : PdfDocModel :=
  { sections := (List.range n).map fun k =>
      (k, .classic [] (some { prev := some (k + 1) })),
    startxref := 0 }

set_option maxRecDepth 4000 in
/-- C2 counterexample: loading the document whose trailer `/Prev` points
at its own startxref offset terminates *without error*: the revisit is
skipped inside `ReadNextTrailer` with a logged warning, so no
CycleDetected error is surfaced, refuting the claim as stated. -/
theorem c2_cycle_counterexample :
    (parse c2Doc false true Repo.empty).map LoadResult.err = some none := by
  decide

/-- C2 (amended): every load terminates — `parse` always returns a result,
never exhausting the embedding's recursion budget — and entering
`ReadXRefContents` at an offset already visited in this parse fails with
the CycleDetected error, which carries code `InvalidXRef`.  A trailer
`/Prev` pointing at an already-visited offset is however skipped with a
warning inside `ReadNextTrailer` (see the counterexample), so only
revisits reached through `ReadXRefContents` — e.g. through an
xref-stream `/Prev` chain — surface CycleDetected. -/
theorem c2_cycle_detection :
    (∀ doc strict ignoreBroken repo,
      (parse doc strict ignoreBroken repo).isSome = true) ∧
    (∀ doc fuel offset depth st p, offset ∈ st.visitedXRefOffsets →
      depth + 1 ≤ MaxRecursionDepth →
      readXRefContents doc (fuel + 1) offset depth st p =
        some (.error (.cycleDetected offset))) ∧
    (∀ offset, PdfErr.code (.cycleDetected offset) = PdfErrorCode.invalidXRef) := by
  refine ⟨parse_isSome, ?_, fun _ => rfl⟩
  intro doc fuel offset depth st p hvis hdep
  have hg : recursionGuardCheck depth = .ok (depth + 1) := by
    unfold recursionGuardCheck
    have h2 : ¬ depth + 1 > MaxRecursionDepth := by omega
    simp [h2]
  simp only [readXRefContents, walk, hg]
  simp [hvis]

/-- Witness for C2 at the self-`/Prev` document and a concrete visited
state. -/
theorem c2_cycle_detection_witness :
    (parse c2Doc false true Repo.empty).isSome = true ∧
    readXRefContents c2Doc 6 100 0
      { visitedXRefOffsets := [100] } false =
      some (.error (.cycleDetected 100)) ∧
    PdfErr.code (.cycleDetected 100) = PdfErrorCode.invalidXRef :=
  ⟨c2_cycle_detection.1 c2Doc false true Repo.empty,
   c2_cycle_detection.2.1 c2Doc 5 100 0 _ false (by decide) (by decide),
   c2_cycle_detection.2.2 100⟩

set_option maxRecDepth 10000 in
/-- C5: reading one revision is recursion-guarded with a maximum depth of
exactly 500; entering any guarded read (`ReadXRefContents`,
`ReadNextTrailer` and `ReadXRefStreamContents` all pass through the guard
at the front of `walk`) at the depth limit fails with the guard's
deterministic error, raised with code `InvalidXRef` (the spec's
RecursionLimitExceeded kind), while below the limit the guard hands the
body the incremented depth — the embedding passes depth by value, so a
guarded read always leaves its caller's depth unchanged, the counterpart
of the RAII restore on every exit.  The parse of every document returns
without exhausting the embedding's recursion budget, and a concrete
300-revision `/Prev` chain fails deterministically with the guard
error. -/
theorem c5_recursion_guard :
    MaxRecursionDepth = 500 ∧
    (∀ depth, MaxRecursionDepth ≤ depth →
      recursionGuardCheck depth = .error .recursionLimit) ∧
    (∀ depth, depth < MaxRecursionDepth →
      recursionGuardCheck depth = .ok (depth + 1)) ∧
    PdfErr.code .recursionLimit = PdfErrorCode.invalidXRef ∧
    (∀ doc fuel call depth st, MaxRecursionDepth ≤ depth →
      walk doc (fuel + 1) call depth st = some (.error .recursionLimit)) ∧
    (∀ doc strict ignoreBroken repo,
      (parse doc strict ignoreBroken repo).isSome = true) ∧
    (parse (chainDoc 300) false true Repo.empty).map LoadResult.err =
      some (some .recursionLimit) := by
  refine ⟨rfl, fun depth h => recursionGuardCheck_limit h, ?_, rfl, ?_,
    parse_isSome, by decide⟩
  · intro depth h
    unfold recursionGuardCheck
    have h2 : ¬ depth + 1 > MaxRecursionDepth := by omega
    simp [h2]
  · intro doc fuel call depth st h
    simp only [walk, recursionGuardCheck_limit h]

/-- Witness for C5 at concrete depths and the self-`/Prev` document. -/
theorem c5_recursion_guard_witness :
    recursionGuardCheck 500 = .error .recursionLimit ∧
    recursionGuardCheck 0 = .ok 1 ∧
    walk c2Doc 1 (.contents 0 false) 500 ParserState.initial =
      some (.error .recursionLimit) ∧
    (parse c2Doc false true Repo.empty).isSome = true :=
  ⟨c5_recursion_guard.2.1 500 (by decide),
   c5_recursion_guard.2.2.1 0 (by decide),
   c5_recursion_guard.2.2.2.2.1 c2Doc 0 (.contents 0 false) 500
     ParserState.initial (by decide),
   c5_recursion_guard.2.2.2.2.2.1 c2Doc false true Repo.empty⟩

/-- C6: a parsed in-use cross-reference entry with byte offset 0 and
generation 0: in strict mode the object pass fails hard with the
`InvalidXRef` error; in lenient mode it logs the condition and adds
`(i, 1)` to the free list as an implicit free object, pushing no
object. -/
theorem c6_zero_offset_entry (i : Nat) (entry : PdfXRefEntry) (repo : Repo)
    (ignoreBroken : Bool)
    (hp : entry.parsed = true) (ht : entry.type = .inUse)
    (ho : entry.offset = 0) (hg : entry.generation = 0) :
    readObjectEntry true ignoreBroken i entry repo =
      (repo, some .zeroOffsetStrict) ∧
    PdfErr.code .zeroOffsetStrict = PdfErrorCode.invalidXRef ∧
    readObjectEntry false ignoreBroken i entry repo =
      ((repo.addFreeObject (i, 1)).logMsg
        "Treating object as a free object", none) := by
  refine ⟨?_, rfl, ?_⟩ <;> simp [readObjectEntry, hp, ht, ho, hg]

/-- Witness for C6 at a concrete entry and index. -/
theorem c6_zero_offset_entry_witness :
    readObjectEntry true true 3
      { offset := 0, generation := 0, type := .inUse, parsed := true }
      Repo.empty = (Repo.empty, some .zeroOffsetStrict) ∧
    PdfErr.code .zeroOffsetStrict = PdfErrorCode.invalidXRef ∧
    readObjectEntry false true 3
      { offset := 0, generation := 0, type := .inUse, parsed := true }
      Repo.empty =
      ((Repo.empty.addFreeObject (3, 1)).logMsg
        "Treating object as a free object", none) :=
  c6_zero_offset_entry 3 _ Repo.empty true rfl rfl rfl rfl


/-- Concrete trailers for the C4 witness. -/
def c4NewerTrailer : PdfTrailerDict := { root := some .dict, size := some (.num 3) }

def c4OlderTrailer : PdfTrailerDict := { root := some .null, info := some .dict }

/-- Witness for C4 at a two-revision chain: the newer revision's Root
survives the merge of the older one. -/
theorem c4_trailer_merge_first_wins_witness :
    Option.elim (mergeTrailerChain [c4NewerTrailer, c4OlderTrailer]) none
      PdfTrailerDict.root =
      specFirstWins ([c4NewerTrailer, c4OlderTrailer].map PdfTrailerDict.root) ∧
    (mergeTrailer c4NewerTrailer c4OlderTrailer).root = some .dict :=
  ⟨(c4_trailer_merge_first_wins [c4NewerTrailer, c4OlderTrailer]
      c4NewerTrailer c4OlderTrailer).1.2.1,
   (c4_trailer_merge_first_wins [c4NewerTrailer, c4OlderTrailer]
      c4NewerTrailer c4OlderTrailer).2.2.1 .dict rfl⟩

/-- The document of the C3 counterexample: a single classic revision at
byte offset 50 with two records for objects 1 and 2, where object 2 is an
in-use entry with offset 0 and generation 0 — a hard error in strict
mode, reached only after object 1 has already been pushed. -/
def c3Doc : PdfDocModel :=
  { sections := [(50, .classic [(1, 2,
      ("0000000018 00000 n\r\n" ++ "0000000000 00000 n\r\n").toList)]
      (some { size := some (.num 3), root := some .dict }))],
    startxref := 50 }

set_option maxRecDepth 4000 in
/-- C3 counterexample: loading `c3Doc` in strict mode fails with an
`InvalidXRef` error, yet the repository's object list still holds the
object `1 0 R` pushed before the failure — `PdfParser::Reset` run by the
`catch` of `Parse` clears only the parser's own state, never the object
list, so a failed load can leave the repository partially populated. -/
theorem c3_failed_load_counterexample :
    (parse c3Doc true true Repo.empty).map
        (fun r => (r.err.map PdfErr.code, r.repo.objects)) =
      some (some PdfErrorCode.invalidXRef, [(1, 0)]) := by
  decide

set_option maxRecDepth 4000 in
/-- C3 (amended): on every load failure other than `InvalidPassword` the
parser clears its own members — the entry table, the trailer, the
incremental-update counter and the xref-stream flag are back at their
reset values — but `PdfParser::Reset` never clears the visited-offset
set, which survives the failure (so the parser is not cleanly reusable: a
re-parse would find its offsets already visited), and the repository's
object list is not cleared and may retain objects pushed before the
failure (see the counterexample).  Concretely, the failed strict-mode
load of `c3Doc` leaves offset 50 in the visited set.  The
`InvalidPassword` failure intentionally performs no cleanup so the caller
can set a password and parse again. -/
theorem c3_failed_load_reset (doc : PdfDocModel) (strict ignoreBroken : Bool)
    (repo : Repo) (r : LoadResult) (e : PdfErr)
    (hr : parse doc strict ignoreBroken repo = some r)
    (he : r.err = some e) (hcode : e.code ≠ PdfErrorCode.invalidPassword) :
    (r.parser.entries = [] ∧ r.parser.trailer = none ∧
      r.parser.incrementalUpdateCount = 0 ∧ r.parser.hasXRefStream = false) ∧
    (∀ st : ParserState, st.reset.visitedXRefOffsets =
      st.visitedXRefOffsets) ∧
    (parse c3Doc true true Repo.empty).map
      (fun r2 => r2.parser.visitedXRefOffsets) = some [50] := by
  refine ⟨?_, fun _ => rfl, by decide⟩
  unfold parse at hr
  cases hpb : parseBody doc strict ignoreBroken repo with
  | none => rw [hpb] at hr; exact absurd hr (by simp)
  | some v =>
    rcases v with ⟨repo1, st, _ | e2⟩
    · rw [hpb] at hr
      simp only [Option.some.injEq] at hr
      rw [← hr] at he
      simp at he
    · rw [hpb] at hr
      dsimp only at hr
      by_cases hc : e2.code = PdfErrorCode.invalidPassword
      · rw [if_pos hc] at hr
        simp only [Option.some.injEq] at hr
        rw [← hr] at he
        simp only at he
        simp at he
        exact absurd (he ▸ hc) hcode
      · rw [if_neg hc] at hr
        simp only [Option.some.injEq] at hr
        rw [← hr]
        exact ⟨rfl, rfl, rfl, rfl⟩

set_option maxRecDepth 4000 in
/-- Witness for C3 at the concrete failing strict-mode load, whose
post-failure parser retains the visited offset 50. -/
theorem c3_failed_load_reset_witness :
    (({ visitedXRefOffsets := [50] } : ParserState).entries = [] ∧
      ({ visitedXRefOffsets := [50] } : ParserState).trailer = none ∧
      ({ visitedXRefOffsets := [50] } : ParserState).incrementalUpdateCount
        = 0 ∧
      ({ visitedXRefOffsets := [50] } : ParserState).hasXRefStream = false) ∧
    (ParserState.reset { visitedXRefOffsets := [50] }).visitedXRefOffsets =
      [50] ∧
    (parse c3Doc true true Repo.empty).map
      (fun r2 => r2.parser.visitedXRefOffsets) = some [50] :=
  ⟨(c3_failed_load_reset c3Doc true true Repo.empty
      { parser := { visitedXRefOffsets := [50] },
        repo := { objects := [(1, 0)], freeObjects := [], log := [] },
        err := some .zeroOffsetStrict } .zeroOffsetStrict
      (by decide) (by decide) (by decide)).1,
   (c3_failed_load_reset c3Doc true true Repo.empty
      { parser := { visitedXRefOffsets := [50] },
        repo := { objects := [(1, 0)], freeObjects := [], log := [] },
        err := some .zeroOffsetStrict } .zeroOffsetStrict
      (by decide) (by decide) (by decide)).2.1
     { visitedXRefOffsets := [50] },
   (c3_failed_load_reset c3Doc true true Repo.empty
      { parser := { visitedXRefOffsets := [50] },
        repo := { objects := [(1, 0)], freeObjects := [], log := [] },
        err := some .zeroOffsetStrict } .zeroOffsetStrict
      (by decide) (by decide) (by decide)).2.2⟩

/-! ## The lazy object: `PdfParserObject` delayed loading and eviction -/

/-- The state of a `PdfParserObject` relevant to lazy loading: the source
byte offset and stream slot from `PdfParserObject.h`, and the variant,
dirty flag and delayed-load flag of the `PdfObject` base (modelled from
the spec; `PdfObject.cpp` is not part of the excerpt: an object defers
parsing until first access and eviction re-defers it). -/
structure ParserObjState where
  offset : Nat
  variant : PdfVal := .null
  dirty : Bool := false
  delayedLoadDone : Bool := false
  stream : Option (List Char) := none
  deriving DecidableEq

/-- What parsing the value grammar at each byte offset of the source
device yields. -/
abbrev ObjSource := List (Nat × PdfVal)

/-- The delayed-load protocol around `PdfParserObject::DelayedLoadImpl`
(lines 73-81): a second access returns the cached value; the first access
seeks to the stored offset and parses the value found there. -/
def delayedLoad (src : ObjSource) (o : ParserObjState) :
    Except PdfErr ParserObjState :=
  if o.delayedLoadDone then .ok o
  else
    match src.lookup o.offset with
    | some v => .ok { o with variant := v, delayedLoadDone := true }
    | none => .error .objectParseError

/-- An accessor (`get`): triggers the delayed load and returns the
value. -/
def getValue (src : ObjSource) (o : ParserObjState) :
    Except PdfErr (PdfVal × ParserObjState) :=
  (delayedLoad src o).map (fun o1 => (o1.variant, o1))

/-- A mutation of the object's value; sets the dirty flag.  Modelled from
the spec ("a dirty flag ... mutating a nested value can mark the
top-level object dirty"). -/
def setValue (o : ParserObjState) (v : PdfVal) : ParserObjState :=
  { o with variant := v, dirty := true }

/-- `PdfParserObject::FreeObjectMemory` (lines 285-296): when the object
is not dirty, or `force` is set, discard the parsed variant (when the
delayed load had completed), free the stream, and re-enable delayed
loading of both. -/
def freeObjectMemory (o : ParserObjState) (force : Bool) : ParserObjState :=
  if !o.dirty || force then
    { o with
      variant := if o.delayedLoadDone then .null else o.variant,
      stream := none,
      delayedLoadDone := false }
  else o

/-- C8: for a clean (non-dirty) materialized object holding the value
parsed from its source offset, `get` yields that value both before and
after a `FreeObjectMemory`/re-materialize cycle; and `FreeObjectMemory`
without `force` never reverts a dirty object. -/
theorem c8_lazy_equivalence (src : ObjSource) (o : ParserObjState) (v : PdfVal)
    (hclean : o.dirty = false) (hdone : o.delayedLoadDone = true)
    (hsrc : src.lookup o.offset = some v) (hval : o.variant = v) :
    ((getValue src o).map Prod.fst = .ok v ∧
     (getValue src (freeObjectMemory o false)).map Prod.fst = .ok v) ∧
    (∀ o2 : ParserObjState, o2.dirty = true →
      freeObjectMemory o2 false = o2) := by
  refine ⟨⟨?_, ?_⟩, ?_⟩
  · simp [getValue, delayedLoad, hdone, hval, Except.map]
  · simp [getValue, freeObjectMemory, delayedLoad, hclean, hdone, hsrc,
      Except.map]
  · intro o2 h2
    simp [freeObjectMemory, h2]

/-- A clean materialized object for the C8 witness. -/
def c8CleanObj : ParserObjState :=
  { offset := 7, variant := .dict, delayedLoadDone := true }

/-- A dirty object for the C8 witness. -/
def c8DirtyObj : ParserObjState :=
  { offset := 7, variant := .num 1, dirty := true, delayedLoadDone := true }

/-- Witness for C8 at a concrete source and objects. -/
theorem c8_lazy_equivalence_witness :
    ((getValue [(7, PdfVal.dict)] c8CleanObj).map Prod.fst = .ok PdfVal.dict ∧
     (getValue [(7, PdfVal.dict)] (freeObjectMemory c8CleanObj false)).map
        Prod.fst = .ok PdfVal.dict) ∧
    freeObjectMemory c8DirtyObj false = c8DirtyObj :=
  ⟨(c8_lazy_equivalence [(7, PdfVal.dict)] c8CleanObj .dict rfl rfl (by decide)
      rfl).1,
   (c8_lazy_equivalence [(7, PdfVal.dict)] c8CleanObj .dict rfl rfl (by decide)
      rfl).2 c8DirtyObj rfl⟩

/-! ## The streaming writer: `PdfImmediateWriter::WriteObject` -/

/-- A byte sink (`OutputStreamDevice`): a buffer and a write position. -/
structure OutDev where
  data : List Char := []
  pos : Nat := 0
  deriving DecidableEq

/-- `write`: overwrite at the current position, extending the buffer when
writing past the end, and advance the position. -/
def OutDev.write (d : OutDev) (s : List Char) : OutDev :=
  { data := d.data.take d.pos ++ s ++ d.data.drop (d.pos + s.length),
    pos := d.pos + s.length }

/-- `Seek` to an absolute position. -/
def OutDev.seek (d : OutDev) (p : Nat) : OutDev := { d with pos := p }

/-- The closing marker `endobj\n` every object serialization ends with
(`PdfObject::Write` is not part of the excerpt; that serialization ends
with this marker is the contract the in-place patch relies on, see the
comment at `PdfImmediateWriter.cpp` lines 76-79). -/
def endObjMarker : List Char := "endobj\n".toList

/-- The stream-begin keyword `stream\n` patched over the closing
marker. -/
def streamBeginMarker : List Char := "stream\n".toList

/-- `PdfImmediateWriter::WriteObject` (lines 67-83), after
`FinishLastObject` has flushed the previous object: write the object's
serialization `body ++ endobj-marker`, then seek back `endObjLenght = 7`
bytes and overwrite the marker in place with the stream-begin keyword. -/
def writeObjectPatch (d : OutDev) (body : List Char) : OutDev :=
  let d1 := d.write (body ++ endObjMarker)
  let d2 := d1.seek (d1.pos - 7)
  d2.write streamBeginMarker

/-- C9: both markers are exactly 7 bytes long; writing an object through
the streaming writer from a device positioned at its end produces the old
contents followed by the serialization with the closing marker replaced
in place by `stream\n`, leaves the device positioned at the end, and
preserves every byte written before the object — so every offset
recorded so far stays valid. -/
theorem c9_stream_patch (d : OutDev) (body : List Char)
    (hpos : d.pos = d.data.length) :
    endObjMarker.length = 7 ∧ streamBeginMarker.length = 7 ∧
    (writeObjectPatch d body).data = d.data ++ body ++ streamBeginMarker ∧
    (writeObjectPatch d body).pos = (writeObjectPatch d body).data.length ∧
    (writeObjectPatch d body).data.take d.data.length = d.data := by
  have hlen7 : endObjMarker.length = 7 := by decide
  have hlen7s : streamBeginMarker.length = 7 := by decide
  have hdata : (writeObjectPatch d body).data =
      d.data ++ body ++ streamBeginMarker := by
    unfold writeObjectPatch OutDev.write OutDev.seek
    dsimp only
    rw [hpos]
    rw [List.take_length]
    rw [List.drop_eq_nil_of_le (by simp)]
    simp only [List.append_nil]
    have h1 : d.data.length + (body ++ endObjMarker).length - 7 =
        (d.data ++ body).length := by
      simp [hlen7]
      omega
    rw [h1]
    have h2 : d.data ++ (body ++ endObjMarker) =
        (d.data ++ body) ++ endObjMarker := by
      simp
    rw [h2]
    rw [List.take_left]
    rw [List.drop_eq_nil_of_le (by simp [hlen7, hlen7s]; omega)]
    simp
  refine ⟨hlen7, hlen7s, hdata, ?_, ?_⟩
  · rw [hdata]
    unfold writeObjectPatch OutDev.write OutDev.seek
    dsimp only
    simp [hlen7, hlen7s]
    omega
  · rw [hdata]
    have h3 : d.data ++ body ++ streamBeginMarker =
        d.data ++ (body ++ streamBeginMarker) := by simp
    rw [h3, List.take_left]

/-- A sink already holding a header, for the C9 witness. -/
def c9Dev : OutDev := { data := "%PDF-1.5\n".toList, pos := 9 }

/-- Witness for C9 at a concrete device and object serialization. -/
theorem c9_stream_patch_witness :
    endObjMarker.length = 7 ∧ streamBeginMarker.length = 7 ∧
    (writeObjectPatch c9Dev "1 0 obj\n<<>>\n".toList).data =
      c9Dev.data ++ "1 0 obj\n<<>>\n".toList ++ streamBeginMarker ∧
    (writeObjectPatch c9Dev "1 0 obj\n<<>>\n".toList).pos =
      (writeObjectPatch c9Dev "1 0 obj\n<<>>\n".toList).data.length ∧
    (writeObjectPatch c9Dev "1 0 obj\n<<>>\n".toList).data.take
      c9Dev.data.length = c9Dev.data :=
  c9_stream_patch c9Dev "1 0 obj\n<<>>\n".toList (by decide)

/-! ## Handle accounting after a load (C10) -/


/-- One first-pass step only appends to the repository's lists. -/
theorem readObjectEntry_mono (s b : Bool) (i : Nat) (e : PdfXRefEntry)
    (repo : Repo) (x : Nat × Nat) :
    (x ∈ repo.objects → x ∈ (readObjectEntry s b i e repo).1.objects) ∧
    (x ∈ repo.freeObjects → x ∈ (readObjectEntry s b i e repo).1.freeObjects) := by
  unfold readObjectEntry Repo.pushObject Repo.addFreeObject
    Repo.safeAddFreeObject Repo.logMsg
  repeat' split
  all_goals constructor <;> intro hx <;> simp [hx]

/-- The first object pass only appends to the repository's lists. -/
theorem readObjectsPass1_mono (s b : Bool) :
    ∀ (lst : List PdfXRefEntry) (i : Nat) (repo : Repo) (x : Nat × Nat),
      (x ∈ repo.objects → x ∈ (readObjectsPass1 s b lst i repo).1.objects) ∧
      (x ∈ repo.freeObjects →
        x ∈ (readObjectsPass1 s b lst i repo).1.freeObjects) := by
  intro lst
  induction lst with
  | nil => intro i repo x; exact ⟨id, id⟩
  | cons e es ih =>
    intro i repo x
    simp only [readObjectsPass1]
    split
    · rename_i repo1 heq
      constructor <;> intro hx
      · exact (ih (i+1) repo1 x).1
          ((heq ▸ (readObjectEntry_mono s b i e repo x).1) hx)
      · exact (ih (i+1) repo1 x).2
          ((heq ▸ (readObjectEntry_mono s b i e repo x).2) hx)
    · rename_i repo1 err heq
      constructor <;> intro hx
      · exact (heq ▸ (readObjectEntry_mono s b i e repo x).1) hx
      · exact (heq ▸ (readObjectEntry_mono s b i e repo x).2) hx



/-- The per-entry bookkeeping guarantee of the first object pass. -/
def entryOutcome (i : Nat) (e : PdfXRefEntry) (repo : Repo) : Prop :=
  (e.parsed = false → i ≠ 0 → (i, 1) ∈ repo.freeObjects) ∧
  (e.parsed = true → e.type = .inUse → 0 < e.offset → i ≠ 0 →
    (i, e.generation % 65536) ∈ repo.objects) ∧
  (e.parsed = true → e.type = .inUse → e.offset = 0 → e.generation = 0 →
    (i, 1) ∈ repo.freeObjects) ∧
  (e.parsed = true → e.type = .free → i ≠ 0 →
    e.generation % 65536 + 1 ≤ MaxGenerationNumber →
    (i, e.generation % 65536 + 1) ∈ repo.freeObjects)

theorem entryOutcome_mono (i : Nat) (e : PdfXRefEntry) (r1 r2 : Repo)
    (hobj : ∀ x, x ∈ r1.objects → x ∈ r2.objects)
    (hfree : ∀ x, x ∈ r1.freeObjects → x ∈ r2.freeObjects)
    (h : entryOutcome i e r1) : entryOutcome i e r2 := by
  obtain ⟨h1, h2, h3, h4⟩ := h
  exact ⟨fun a b => hfree _ (h1 a b),
         fun a b c d => hobj _ (h2 a b c d),
         fun a b c d => hfree _ (h3 a b c d),
         fun a b c d => hfree _ (h4 a b c d)⟩

theorem readObjectEntry_post (s b : Bool) (i : Nat) (e : PdfXRefEntry)
    (repo : Repo) (h : (readObjectEntry s b i e repo).2 = none) :
    entryOutcome i e (readObjectEntry s b i e repo).1 := by
  unfold readObjectEntry at h ⊢
  unfold entryOutcome
  by_cases hp : e.parsed = true
  · simp only [hp, if_true] at h ⊢
    cases ht : e.type with
    | inUse =>
      simp only [ht] at h ⊢
      by_cases hoff : 0 < e.offset
      · simp only [hoff, if_true] at h ⊢
        by_cases hio : i = 0 ∧ e.generation % 65536 = 0
        · simp [hio] at h
        · simp only [hio, if_false] at h ⊢
          refine ⟨by simp [hp], ?_, ?_, by simp [ht]⟩
          · intro _ _ _ _
            simp [Repo.pushObject]
          · intro _ _ hzero _
            omega
      · have hoffn : ¬ e.offset > 0 := hoff
        simp only [hoffn, if_false] at h ⊢
        by_cases hg : e.generation = 0
        · simp only [hg, if_true] at h ⊢
          cases s with
          | true => simp at h
          | false =>
            simp only [Bool.false_eq_true, if_false] at h ⊢
            refine ⟨by simp [hp], ?_, ?_, by simp [ht]⟩
            · intro _ _ hpos _
              exact hpos.elim
            · intro _ _ _ _
              simp [Repo.addFreeObject, Repo.logMsg]
        · simp only [hg, if_false] at h ⊢
          refine ⟨by simp [hp], ?_, ?_, by simp [ht]⟩
          · intro _ _ hpos _
            exact hpos.elim
          · intro _ _ _ hg0
            exact hg0.elim
    | free =>
      simp only [ht] at h ⊢
      refine ⟨by simp [hp], by simp [ht], by simp [ht], ?_⟩
      intro _ _ hi hle
      simp [Repo.safeAddFreeObject, hi, hle]
    | compressed =>
      simp only [ht] at h ⊢
      exact ⟨by simp [hp], by simp [ht], by simp [ht], by simp [ht]⟩
    | unknown =>
      simp [ht] at h
  · have hp2 : e.parsed = false := by simpa using hp
    simp only [hp2, Bool.false_eq_true, if_false] at h ⊢
    by_cases hi : i = 0
    · simp only [hi, ne_eq, not_true_eq_false, if_false] at h ⊢
      refine ⟨?_, by simp [hp2], by simp [hp2], by simp [hp2]⟩
      intro _ hne
      exact hne.elim
    · simp only [hi, ne_eq, not_false_eq_true, if_true] at h ⊢
      refine ⟨?_, by simp [hp2], by simp [hp2], by simp [hp2]⟩
      intro _ _
      simp [Repo.addFreeObject]



theorem readObjectsPass1_post (s b : Bool) :
    ∀ (lst : List PdfXRefEntry) (i0 : Nat) (repo repo1 : Repo),
      readObjectsPass1 s b lst i0 repo = (repo1, none) →
      ∀ k, (hk : k < lst.length) →
        entryOutcome (i0 + k) (lst.get ⟨k, hk⟩) repo1 := by
  intro lst
  induction lst with
  | nil =>
    intro i0 repo repo1 hrun k hk
    exact absurd hk (by simp)
  | cons e es ih =>
    intro i0 repo repo1 hrun k hk
    simp only [readObjectsPass1] at hrun
    split at hrun
    · rename_i repoA heqA
      cases k with
      | zero =>
        have hpost := readObjectEntry_post s b i0 e repo (by rw [heqA])
        rw [heqA] at hpost
        refine entryOutcome_mono _ _ _ _ ?_ ?_ hpost
        · intro x hx
          have hm := (readObjectsPass1_mono s b es (i0 + 1) repoA x).1 hx
          rw [hrun] at hm
          exact hm
        · intro x hx
          have hm := (readObjectsPass1_mono s b es (i0 + 1) repoA x).2 hx
          rw [hrun] at hm
          exact hm
      | succ k2 =>
        have hk2 : k2 < es.length := by simpa using hk
        have hih := ih (i0 + 1) repoA repo1 hrun k2 hk2
        have harith : i0 + (k2 + 1) = (i0 + 1) + k2 := by omega
        rw [harith]
        exact hih
    · rename_i repoA err heqA
      exact absurd hrun (by simp)

/-- Resolving one container only appends objects and never touches the
free list. -/
theorem readCompressedFromStream_mono (b : Bool) (entries : List PdfXRefEntry)
    (c : Nat) (streams : List Nat) (repo : Repo) (x : Nat × Nat) :
    (x ∈ repo.objects →
      x ∈ ((readCompressedFromStream b entries c streams repo).1.2).objects) ∧
    ((readCompressedFromStream b entries c streams repo).1.2).freeObjects =
      repo.freeObjects := by
  unfold readCompressedFromStream Repo.logMsg
  repeat' split
  all_goals constructor <;> first
    | (intro hx; simp [hx])
    | rfl

/-- The compressed pass only appends objects and never touches the free
list. -/
theorem readObjectsPass2_mono (b : Bool) (entries : List PdfXRefEntry) :
    ∀ (rest : List PdfXRefEntry) (streams : List Nat) (repo : Repo)
      (x : Nat × Nat),
      (x ∈ repo.objects →
        x ∈ ((readObjectsPass2 b entries rest streams repo).1.2).objects) ∧
      ((readObjectsPass2 b entries rest streams repo).1.2).freeObjects =
        repo.freeObjects := by
  intro rest
  induction rest with
  | nil => intro streams repo x; exact ⟨id, rfl⟩
  | cons e es ih =>
    intro streams repo x
    simp only [readObjectsPass2]
    split
    · split
      · rename_i sr heq
        constructor
        · intro hx
          have h1 := (readCompressedFromStream_mono b entries e.objectNumber
            streams repo x).1 hx
          rw [heq] at h1
          exact (ih sr.1 sr.2 x).1 h1
        · have h2 := (readCompressedFromStream_mono b entries e.objectNumber
            streams repo x).2
          rw [heq] at h2
          rw [(ih sr.1 sr.2 x).2]
          exact h2
      · rename_i sr err heq
        constructor
        · intro hx
          have h1 := (readCompressedFromStream_mono b entries e.objectNumber
            streams repo x).1 hx
          rw [heq] at h1
          exact h1
        · have h2 := (readCompressedFromStream_mono b entries e.objectNumber
            streams repo x).2
          rw [heq] at h2
          exact h2
    · exact ih streams repo x



/-- The stream set grows by at most the processed container number. -/
theorem readCompressedFromStream_streams (b : Bool)
    (entries : List PdfXRefEntry) (objNo : Nat) (streams : List Nat)
    (repo : Repo) :
    (readCompressedFromStream b entries objNo streams repo).1.1 = streams ∨
    (readCompressedFromStream b entries objNo streams repo).1.1 =
      objNo :: streams := by
  unfold readCompressedFromStream
  repeat' split
  all_goals simp

/-- Resolving a not-yet-seen container whose object is present
materializes all of its listed objects. -/
theorem readCompressedFromStream_hit (b : Bool)
    (entries : List PdfXRefEntry) (c : Nat) (streams : List Nat)
    (repo : Repo) (hc : c ∉ streams) (hobj : (c, 0) ∈ repo.objects) :
    readCompressedFromStream b entries c streams repo =
      ((c :: streams, { repo with objects := repo.objects ++
        (compressedIdsFor entries c).map (fun i => (i, 0)) }), none) := by
  unfold readCompressedFromStream
  rw [if_neg hc]
  dsimp only
  rw [if_pos hobj]

/-- A parsed compressed entry is listed for its own container. -/
theorem mem_compressedIdsFor (entries : List PdfXRefEntry) (c i : Nat)
    (hi : i < entries.length)
    (hp : (entries.get ⟨i, hi⟩).parsed = true)
    (ht : (entries.get ⟨i, hi⟩).type = .compressed)
    (hn : (entries.get ⟨i, hi⟩).objectNumber = c) :
    i ∈ compressedIdsFor entries c := by
  unfold compressedIdsFor
  apply List.mem_map.mpr
  refine ⟨(i, entries.get ⟨i, hi⟩), ?_, rfl⟩
  apply List.mem_filter.mpr
  constructor
  · apply (List.mk_mem_enum_iff_getElem?).mpr
    simp [List.getElem?_eq_getElem hi]
  · simp only [decide_eq_true_eq, Bool.and_eq_true, beq_iff_eq]
    exact ⟨⟨hp, ht⟩, hn⟩

/-- If some entry of the suffix names container `c`, `c` has not been
resolved yet and the container object is present, then a completed
compressed pass materializes every object listed for `c`. -/
theorem readObjectsPass2_group (b : Bool) (entries : List PdfXRefEntry) :
    ∀ (rest : List PdfXRefEntry) (streams : List Nat) (repo : Repo) (c : Nat),
      c ∉ streams → (c, 0) ∈ repo.objects →
      (readObjectsPass2 b entries rest streams repo).2 = none →
      (∃ e, e ∈ rest ∧ e.parsed = true ∧ e.type = .compressed ∧
        e.objectNumber = c) →
      ∀ i, i ∈ compressedIdsFor entries c →
        (i, 0) ∈ ((readObjectsPass2 b entries rest streams repo).1.2).objects := by
  intro rest
  induction rest with
  | nil =>
    intro streams repo c hc hobj hrun hw i hid
    obtain ⟨e, he, _⟩ := hw
    exact absurd he (by simp)
  | cons e es ih =>
    intro streams repo c hc hobj hrun hw i hid
    simp only [readObjectsPass2] at hrun ⊢
    by_cases hec : (e.parsed && (e.type == XRefEntryType.compressed)) = true
    · simp only [hec, if_true] at hrun ⊢
      by_cases heqc : e.objectNumber = c
      · rw [heqc] at hrun ⊢
        rw [readCompressedFromStream_hit b entries c streams repo hc hobj]
          at hrun ⊢
        dsimp only at hrun ⊢
        have hin : (i, 0) ∈ repo.objects ++
            (compressedIdsFor entries c).map (fun j => (j, 0)) := by
          apply List.mem_append.mpr
          right
          exact List.mem_map.mpr ⟨i, hid, rfl⟩
        exact (readObjectsPass2_mono b entries es _ _ (i, 0)).1 hin
      · split at hrun
        · rename_i sr heq
          have hcs : c ∉ sr.1 := by
            rcases readCompressedFromStream_streams b entries e.objectNumber
                streams repo with hs | hs <;> rw [heq] at hs <;> dsimp at hs <;>
              rw [hs]
            · exact hc
            · intro hmem
              rcases List.mem_cons.mp hmem with h1 | h1
              · exact heqc h1.symm
              · exact hc h1
          have hco : (c, 0) ∈ sr.2.objects := by
            have hm := (readCompressedFromStream_mono b entries e.objectNumber
              streams repo (c, 0)).1 hobj
            rw [heq] at hm
            exact hm
          have hw2 : ∃ e2, e2 ∈ es ∧ e2.parsed = true ∧
              e2.type = .compressed ∧ e2.objectNumber = c := by
            obtain ⟨e2, he2, hp2, ht2, hn2⟩ := hw
            rcases List.mem_cons.mp he2 with rfl | h2
            · exact absurd hn2 heqc
            · exact ⟨e2, h2, hp2, ht2, hn2⟩
          exact ih sr.1 sr.2 c hcs hco hrun hw2 i hid
        · rename_i sr err heq
          simp at hrun
    · simp only [hec, if_false] at hrun ⊢
      have hw2 : ∃ e2, e2 ∈ es ∧ e2.parsed = true ∧
          e2.type = .compressed ∧ e2.objectNumber = c := by
        obtain ⟨e2, he2, hp2, ht2, hn2⟩ := hw
        rcases List.mem_cons.mp he2 with rfl | h2
        · exfalso
          apply hec
          simp [hp2, ht2]
        · exact ⟨e2, h2, hp2, ht2, hn2⟩
      exact ih streams repo c hc hobj hrun hw2 i hid



/-- C10 (amended): after a completed `ReadObjectsInternal`, for every
object number `i` other than 0 in the table range: an entry never parsed
in any revision puts `(i, 1)` on the free list (its recorded generation
is ignored); a parsed in-use entry with positive offset is a live object
`(i, generation mod 2^16)`; a parsed in-use entry with offset 0 and
generation 0 puts `(i, 1)` on the free list; a parsed free entry whose
incremented (truncated) generation is still valid puts
`(i, generation + 1)` on the free list; and a parsed compressed entry
whose container object was materialized by the first pass becomes a live
object `(i, 0)`.  The range is not fully partitioned: a parsed in-use
entry with offset 0 and nonzero generation (see the counterexample), a
free entry whose incremented generation leaves the valid range, and a
compressed entry whose container is unavailable are silently skipped. -/
theorem c10_handle_accounting (strict ib : Bool)
    (entries : List PdfXRefEntry) (repo0 repo1 : Repo)
    (hrun : readObjectsInternal strict ib entries repo0 = (repo1, none)) :
    ∀ i, (hi : i < entries.length) → i ≠ 0 →
      ((entries.get ⟨i, hi⟩).parsed = false → (i, 1) ∈ repo1.freeObjects) ∧
      ((entries.get ⟨i, hi⟩).parsed = true →
        (entries.get ⟨i, hi⟩).type = .inUse →
        0 < (entries.get ⟨i, hi⟩).offset →
        (i, (entries.get ⟨i, hi⟩).generation % 65536) ∈ repo1.objects) ∧
      ((entries.get ⟨i, hi⟩).parsed = true →
        (entries.get ⟨i, hi⟩).type = .inUse →
        (entries.get ⟨i, hi⟩).offset = 0 →
        (entries.get ⟨i, hi⟩).generation = 0 →
        (i, 1) ∈ repo1.freeObjects) ∧
      ((entries.get ⟨i, hi⟩).parsed = true →
        (entries.get ⟨i, hi⟩).type = .free →
        (entries.get ⟨i, hi⟩).generation % 65536 + 1 ≤ MaxGenerationNumber →
        (i, (entries.get ⟨i, hi⟩).generation % 65536 + 1) ∈
          repo1.freeObjects) ∧
      ((entries.get ⟨i, hi⟩).parsed = true →
        (entries.get ⟨i, hi⟩).type = .compressed →
        ((entries.get ⟨i, hi⟩).objectNumber, 0) ∈
          (readObjectsPass1 strict ib entries 0 repo0).1.objects →
        (i, 0) ∈ repo1.objects) := by
  intro i hi hi0
  unfold readObjectsInternal at hrun
  split at hrun
  · simp at hrun
  · rename_i repoA heqA
    split at hrun
    · rename_i pr repo2 heqB
      simp only [Prod.mk.injEq] at hrun
      obtain ⟨rfl, _⟩ := hrun
      have hpost := readObjectsPass1_post strict ib entries 0 repo0 repoA
        heqA i hi
      simp only [Nat.zero_add] at hpost
      obtain ⟨p1, p2, p3, p4⟩ := hpost
      have hfree2 := (readObjectsPass2_mono ib entries entries [] repoA
        (0, 0)).2
      have hobja : ∀ x, x ∈ repoA.objects →
          x ∈ ((readObjectsPass2 ib entries entries [] repoA).1.2).objects :=
        fun x => (readObjectsPass2_mono ib entries entries [] repoA x).1
      have hfreeEq : repo2.freeObjects = repoA.freeObjects := by
        have h2 := hfree2
        rw [heqB] at h2
        exact h2
      refine ⟨?_, ?_, ?_, ?_, ?_⟩
      · intro h
        rw [hfreeEq]
        exact p1 h hi0
      · intro a b c
        have h1 := hobja _ (p2 a b c hi0)
        rw [heqB] at h1
        exact h1
      · intro a b c d
        rw [hfreeEq]
        exact p3 a b c d
      · intro a b c
        rw [hfreeEq]
        exact p4 a b hi0 c
      · intro hp ht hctn
        rw [heqA] at hctn
        have hgrp := readObjectsPass2_group ib entries entries []
          repoA (entries.get ⟨i, hi⟩).objectNumber (by simp) hctn
          (by rw [heqB]) ⟨entries.get ⟨i, hi⟩, List.get_mem entries i hi,
            hp, ht, rfl⟩
          i (mem_compressedIdsFor entries _ i hi hp ht rfl)
        rw [heqB] at hgrp
        exact hgrp
    · rename_i pr err heqB
      simp at hrun



/-- The entry table of the C10 counterexample. -/
def c10Entries : List PdfXRefEntry :=
  [{ objectNumber := 0, generation := 0, type := .free, parsed := true },
   { offset := 0, generation := 5, type := .inUse, parsed := true }]

/-- C10 counterexample: a table whose entry 1 is a parsed in-use entry
with offset 0 and generation 5 loads without error, yet object number 1
ends up neither among the live objects nor on the free list — the range
`[1, table size)` is not fully partitioned, refuting the claim as
stated. -/
theorem c10_partition_counterexample :
    (readObjectsInternal false true c10Entries Repo.empty).2 = none ∧
    ((readObjectsInternal false true c10Entries Repo.empty).1.objects.map
      Prod.fst).contains 1 = false ∧
    ((readObjectsInternal false true c10Entries Repo.empty).1.freeObjects.map
      Prod.fst).contains 1 = false := by
  decide

/-- Witness for C10: a never-parsed entry 1 yields the free-list entry
`(1, 1)`. -/
theorem c10_handle_accounting_witness :
    (1, 1) ∈ ({ objects := [], freeObjects := [(1, 1)], log := [] }
      : Repo).freeObjects :=
  (c10_handle_accounting false true [PdfXRefEntry.unset, PdfXRefEntry.unset]
    Repo.empty { objects := [], freeObjects := [(1, 1)], log := [] }
    (by decide) 1 (by decide) (by decide)).1 (by decide)


end Pdfmm
